import Mathlib

/-!
Shallow embedding of src/src/crawler.py (pleague_advanced_website).

The crawler fetches pages from pleagueofficial.com, extracts a two-level
configuration (season -> season type -> URL) and a player statistics
dataset, and caches both as JSON files.  Pure Python structures are
modelled as follows: `dict` becomes an insertion-ordered association
list without duplicate keys; JSON values become the inductive `Jv`;
`json.dumps(..., ensure_ascii=False, indent=2)` and `json.loads` (the
external serialization collaborators) are modelled by an executable
serializer and parser over `List Char`; HTTP fetching becomes an
environment mapping each URL to a sequence of per-attempt outcomes;
exceptions become `Except PyError`.
-/

namespace Crawler

/-- Python dict assignment `d[k] = v`: replace the value in place if the
key is present (keeping its position), otherwise append at the end. -/
def dictInsert {α : Type} (k : String) (v : α) : List (String × α) → List (String × α)
  | [] => [(k, v)]
  | (k2, v2) :: rest => if k2 = k then (k, v) :: rest else (k2, v2) :: dictInsert k v rest

/-- Python dict lookup `d[k]` / `d.get(k)`. -/
def dictGet {α : Type} (k : String) : List (String × α) → Option α
  | [] => none
  | (k2, v2) :: rest => if k2 = k then some v2 else dictGet k rest

/-- Build a Python dict from a key/value sequence: later bindings win,
as in Python (`dict(pairs)` or a dict comprehension). -/
def pyDict {α : Type} (l : List (String × α)) : List (String × α) :=
  l.foldl (fun d kv => dictInsert kv.1 kv.2 d) []

/-- The left-brace character, kept out of string literals. -/
def lbrace : Char := Char.ofNat 123

/-- The right-brace character, kept out of string literals. -/
def rbrace : Char := Char.ofNat 125

/-- JSON values as produced by `json.loads` and consumed by `json.dumps`.
Numbers are modelled as integers (the crawler itself only ever produces
strings and objects). -/
inductive Jv where
  | null : Jv
  | bool (b : Bool) : Jv
  | num (n : Int) : Jv
  | str (s : String) : Jv
  | arr (items : List Jv) : Jv
  | obj (fields : List (String × Jv)) : Jv
deriving Repr, Inhabited

/-- Hexadecimal digit character for `n < 16`, lowercase as in Python's
`'\u%04x'` formatting. -/
def hexDigit (n : Nat) : Char :=
  if n < 10 then Char.ofNat (48 + n) else Char.ofNat (87 + n)

/-- Escaping of a single character inside a JSON string, following
`json.encoder` with `ensure_ascii=False`: backslash, quote and the five
short control escapes come from the escape table, all remaining control
characters use `\u00xx`, everything else is emitted literally. -/
def escChar (c : Char) : List Char :=
  if c = '\\' then ['\\', '\\']
  else if c = '\"' then ['\\', '\"']
  else if c = Char.ofNat 8 then ['\\', 'b']
  else if c = Char.ofNat 9 then ['\\', 't']
  else if c = Char.ofNat 10 then ['\\', 'n']
  else if c = Char.ofNat 12 then ['\\', 'f']
  else if c = Char.ofNat 13 then ['\\', 'r']
  else if c.toNat < 32 then
    ['\\', 'u', '0', '0', hexDigit (c.toNat / 16), hexDigit (c.toNat % 16)]
  else [c]

/-- Escape every character of a JSON string body. -/
def escStr : List Char → List Char
  | [] => []
  | c :: cs => escChar c ++ escStr cs

/-- Indentation emitted by `json.dumps(..., indent=2)` at nesting level
`lvl`. -/
def ind (lvl : Nat) : List Char := List.replicate (2 * lvl) ' '

mutual

/-- `json.dumps(v, ensure_ascii=False, indent=2)` at nesting level `lvl`,
producing the character list of the serialized value. -/
def serVal (lvl : Nat) : Jv → List Char
  | .null => "null".toList
  | .bool true => "true".toList
  | .bool false => "false".toList
  | .num n => (toString n).toList
  | .str s => '\"' :: (escStr s.toList ++ ['\"'])
  | .arr [] => ['[', ']']
  | .arr (x :: xs) => '[' :: (serItems lvl x xs ++ '\n' :: (ind lvl ++ [']']))
  | .obj [] => [lbrace, rbrace]
  | .obj ((k, v) :: fs) => lbrace :: (serFields lvl k v fs ++ '\n' :: (ind lvl ++ [rbrace]))
termination_by v => sizeOf v

/-- Serialize a nonempty run of array items: newline, indent, item, and a
comma before each further item. -/
def serItems (lvl : Nat) (x : Jv) (xs : List Jv) : List Char :=
  '\n' :: (ind (lvl + 1) ++ serVal (lvl + 1) x ++
    match xs with
    | [] => []
    | y :: ys => ',' :: serItems lvl y ys)
termination_by 1 + sizeOf x + sizeOf xs

/-- Serialize a nonempty run of object members: newline, indent, quoted
key, colon-space, value, and a comma before each further member. -/
def serFields (lvl : Nat) (k : String) (v : Jv) (fs : List (String × Jv)) : List Char :=
  '\n' :: (ind (lvl + 1) ++ '\"' :: (escStr k.toList ++ '\"' :: ':' :: ' ' ::
    (serVal (lvl + 1) v ++
      match fs with
      | [] => []
      | (k2, v2) :: gs => ',' :: serFields lvl k2 v2 gs)))
termination_by 1 + sizeOf v + sizeOf fs

end

/-- The comma-separated continuation of an object member run, split out
of `serFields` for reasoning about one member at a time. -/
def serFieldsTail (lvl : Nat) : List (String × Jv) → List Char
  | [] => []
  | (k2, v2) :: gs => ',' :: serFields lvl k2 v2 gs

/-- The string written to a cache file for value `v`:
`json.dumps(v, ensure_ascii=False, indent=2)`. -/
def dumps (v : Jv) : String := String.mk (serVal 0 v)

/-- The whitespace characters skipped by the `json` scanner. -/
def isWs (c : Char) : Bool := c = ' ' || c = '\t' || c = '\n' || c = '\r'

/-- Drop leading JSON whitespace. -/
def skipWs : List Char → List Char
  | [] => []
  | c :: cs => if isWs c then skipWs cs else c :: cs

/-- Value of one hexadecimal digit character. -/
def hexVal (c : Char) : Option Nat :=
  if '0' ≤ c ∧ c ≤ '9' then some (c.toNat - 48)
  else if 'a' ≤ c ∧ c ≤ 'f' then some (c.toNat - 87)
  else if 'A' ≤ c ∧ c ≤ 'F' then some (c.toNat - 55)
  else none

/-- Decoding of the single-character JSON escapes (everything except
`\uXXXX`). -/
def decEsc (e : Char) : Option Char :=
  if e = '\"' then some '\"'
  else if e = '\\' then some '\\'
  else if e = '/' then some '/'
  else if e = 'b' then some (Char.ofNat 8)
  else if e = 'f' then some (Char.ofNat 12)
  else if e = 'n' then some (Char.ofNat 10)
  else if e = 'r' then some (Char.ofNat 13)
  else if e = 't' then some (Char.ofNat 9)
  else none

/-- Parse the body of a JSON string after its opening quote, returning the
decoded characters and the remaining input after the closing quote.
Unescaped control characters are rejected, as in the default strict mode
of `json.loads`. -/
def parseStrBody (l : List Char) : Option (List Char × List Char) :=
  match l with
  | [] => none
  | c :: cs =>
    if c = '\"' then some ([], cs)
    else if c = '\\' then
      match cs with
      | [] => none
      | e :: cs2 =>
        if e = 'u' then
          match cs2 with
          | h1 :: h2 :: h3 :: h4 :: rest =>
            match hexVal h1, hexVal h2, hexVal h3, hexVal h4 with
            | some a, some b, some c2, some d =>
              match parseStrBody rest with
              | some (out, r) =>
                some (Char.ofNat (((a * 16 + b) * 16 + c2) * 16 + d) :: out, r)
              | none => none
            | _, _, _, _ => none
          | _ => none
        else
          match decEsc e with
          | some d =>
            match parseStrBody cs2 with
            | some (out, r) => some (d :: out, r)
            | none => none
          | none => none
    else if c.toNat < 32 then none
    else
      match parseStrBody cs with
      | some (out, r) => some (c :: out, r)
      | none => none

/-- Decimal value of a digit run. -/
def digitsVal (l : List Char) : Nat :=
  l.foldl (fun a c => a * 10 + (c.toNat - 48)) 0

/-- Parse an integer JSON number: optional minus sign followed by a
nonempty digit run (the crawler never writes fractional numbers, so the
model restricts JSON numbers to integers). -/
def parseNum (cs : List Char) : Option (Int × List Char) :=
  let p := match cs with
    | '-' :: r => (true, r)
    | _ => (false, cs)
  let ds := p.2.takeWhile Char.isDigit
  let rest := p.2.dropWhile Char.isDigit
  if ds.isEmpty then none
  else some (if p.1 then -(digitsVal ds : Int) else (digitsVal ds : Int), rest)

mutual

/-- Parse one JSON value (model of the `json.loads` scanner), consuming
leading whitespace; `fuel` bounds the nesting depth. -/
def parseVal : Nat → List Char → Option (Jv × List Char)
  | 0, _ => none
  | fuel + 1, cs =>
    match skipWs cs with
    | [] => none
    | c :: r =>
      if c = '\"' then
        match parseStrBody r with
        | some (out, rest) => some (.str (String.mk out), rest)
        | none => none
      else if c = lbrace then
        match skipWs r with
        | [] => none
        | c2 :: r2 =>
          if c2 = rbrace then some (.obj [], r2)
          else
            match parseMembers fuel (c2 :: r2) with
            | some (ms, rest) => some (.obj (pyDict ms), rest)
            | none => none
      else if c = '[' then
        match skipWs r with
        | [] => none
        | c2 :: r2 =>
          if c2 = ']' then some (.arr [], r2)
          else
            match parseItems fuel (c2 :: r2) with
            | some (xs, rest) => some (.arr xs, rest)
            | none => none
      else if c = 't' then
        match r with
        | 'r' :: 'u' :: 'e' :: rest => some (.bool true, rest)
        | _ => none
      else if c = 'f' then
        match r with
        | 'a' :: 'l' :: 's' :: 'e' :: rest => some (.bool false, rest)
        | _ => none
      else if c = 'n' then
        match r with
        | 'u' :: 'l' :: 'l' :: rest => some (.null, rest)
        | _ => none
      else
        match parseNum (c :: r) with
        | some (n, rest) => some (.num n, rest)
        | none => none

/-- Parse a nonempty comma-separated run of array items up to and
including the closing bracket. -/
def parseItems : Nat → List Char → Option (List Jv × List Char)
  | 0, _ => none
  | fuel + 1, cs =>
    match parseVal fuel cs with
    | some (v, r) =>
      match skipWs r with
      | [] => none
      | c :: r2 =>
        if c = ',' then
          match parseItems fuel r2 with
          | some (xs, rest) => some (v :: xs, rest)
          | none => none
        else if c = ']' then some ([v], r2)
        else none
    | none => none

/-- Parse a nonempty comma-separated run of object members up to and
including the closing brace. -/
def parseMembers : Nat → List Char → Option (List (String × Jv) × List Char)
  | 0, _ => none
  | fuel + 1, cs =>
    match skipWs cs with
    | [] => none
    | c :: r =>
      if c = '\"' then
        match parseStrBody r with
        | some (kout, r2) =>
          match skipWs r2 with
          | [] => none
          | c3 :: r3 =>
            if c3 = ':' then
              match parseVal fuel r3 with
              | some (v, r4) =>
                match skipWs r4 with
                | [] => none
                | c5 :: r5 =>
                  if c5 = ',' then
                    match parseMembers fuel r5 with
                    | some (ms, rest) => some ((String.mk kout, v) :: ms, rest)
                    | none => none
                  else if c5 = rbrace then some ([(String.mk kout, v)], r5)
                  else none
              | none => none
            else none
        | none => none
      else none

end

/-- `json.loads(s)`: parse a complete JSON document, requiring only
whitespace after the value.  The fuel `s.length + 1` dominates any
possible nesting depth of a parse of `s`. -/
def loads (s : String) : Option Jv :=
  match parseVal (s.length + 1) s.toList with
  | some (v, rest) => if skipWs rest = [] then some v else none
  | none => none

/-- The exceptions that can cross the functions of crawler.py: the two
domain error classes of the module, the three httpx failures caught in
`get_soup`, and the raw Python errors (`AttributeError` on attribute
access of `None`, `KeyError` on a missing BeautifulSoup attribute
subscript, `ValueError` from `is_valid_config` and `int`, `TypeError`). -/
inductive PyError where
  | elementNotFound (desc : String)
  | missingAttribute (element attr : String)
  | timeoutException (url : String)
  | httpStatusError (url : String) (code : Nat)
  | requestError (url : String)
  | attributeError (msg : String)
  | keyError (key : String)
  | valueError (msg : String)
  | typeError (msg : String)
deriving Repr, DecidableEq

/-- An `<option>` node as the crawler sees it: its text and attributes. -/
structure HtmlOption where
  text : String
  attrs : List (String × String)
deriving Repr, DecidableEq

/-- A `<tr>` row of the statistics table: `thA` is the text of
`row.th.a` (`none` when `th` or `a` is absent, in which case Python's
attribute access on `None` raises `AttributeError`), `tds` is the list
of attribute maps of the row's `<td>` cells. -/
structure HtmlRow where
  thA : Option String
  tds : List (List (String × String))
deriving Repr, DecidableEq

/-- The parsed-document collaborator (BeautifulSoup), restricted to the
accesses the crawler performs: `find(id=...)` followed by
`find_all("option")` becomes a lookup in `byId`; `find("tbody")`
followed by `find_all("tr")` becomes `tbody`. -/
structure Soup where
  byId : List (String × List HtmlOption)
  tbody : Option (List HtmlRow)
deriving Repr, DecidableEq

/-- Outcome of one HTTP GET attempt: a parsed 2xx response, an
`httpx.TimeoutException`, an `httpx.HTTPStatusError` from
`raise_for_status`, or another `httpx.RequestError`. -/
inductive FetchOutcome where
  | ok (soup : Soup)
  | timeout
  | status (code : Nat)
  | failed
deriving Repr

/-- The network environment: for each URL, the outcome of each successive
GET attempt against it. -/
abbrev Fetch := String → Nat → FetchOutcome

def URL : String := "https://pleagueofficial.com/stat-player"

def CONFIG_FILENAME : String := "url.json"

def DATA_FILENAME : String := "output.json"

/-- `get_soup(client, url, retries)` issuing its GET as attempt index
`attempt` of the environment, returning the result together with the
total number of GET attempts issued.  On a timeout with budget left the
code recurses with the decremented budget, but then falls through to
`print` and `raise exc`: a successful retry result is discarded and the
original timeout is re-raised, while an exception of the recursive call
propagates as is. -/
def get_soup (fetch : Fetch) (url : String) : Nat → Nat → Except PyError Soup × Nat
  | retries, attempt =>
    match fetch url attempt with
    | .ok soup => (.ok soup, 1)
    | .timeout =>
      match retries with
      | r + 1 =>
        match get_soup fetch url r (attempt + 1) with
        | (.ok _, n) => (.error (.timeoutException url), n + 1)
        | (.error e, n) => (.error e, n + 1)
      | 0 => (.error (.timeoutException url), 1)
    | .status code => (.error (.httpStatusError url code), 1)
    | .failed => (.error (.requestError url), 1)

/-- `get_soup` with the default retry budget 2, as every call site of the
crawler uses it, keeping only the parsed document or error. -/
def fetchDoc (fetch : Fetch) (url : String) : Except PyError Soup :=
  (get_soup fetch url 2 0).1

/-- `get_season(client, season)`: fetch `URL/season` and tag the parsed
document with its season. -/
def get_season (fetch : Fetch) (season : String) : Except PyError (Soup × String) :=
  match fetchDoc fetch (URL ++ "/" ++ season) with
  | .ok soup => .ok (soup, season)
  | .error e => .error e

abbrev Config := List (String × List (String × String))

/-- The inner loop of `load_config_from_web` for one completed season
task: for each option of the id=stage_sn element require a value
attribute and record the canonical page URL under the option's text. -/
def buildSeasonConfig (season : String) :
    List HtmlOption → List (String × String) → Except PyError (List (String × String))
  | [], acc => .ok acc
  | o :: os, acc =>
    match dictGet "value" o.attrs with
    | none => .error (.missingAttribute "option" "value")
    | some v =>
      buildSeasonConfig season os
        (dictInsert o.text (URL ++ "/" ++ season ++ "/" ++ v ++ "#record") acc)

/-- The drain loop of `load_config_from_web`: process completed season
tasks one at a time; a fetch error re-raised by `await task`, a missing
id=stage_sn element, an empty option list, or a missing value attribute
aborts the whole resolution. -/
def drainConfig : List (Except PyError (Soup × String)) → Config → Except PyError Config
  | [], config => .ok config
  | t :: ts, config =>
    match t with
    | .error e => .error e
    | .ok (soup, season) =>
      match dictGet "stage_sn" soup.byId with
      | none => .error (.elementNotFound "id=stage_sn")
      | some options =>
        if options.length = 0 then .error (.elementNotFound "option")
        else
          match buildSeasonConfig season options [] with
          | .error e => .error e
          | .ok sc => drainConfig ts (dictInsert season sc config)

/-- Take the elements of `l` in the positions listed by `order`; with
`order` a permutation of the index range this models the
nondeterministic first-completed-first-processed order in which
`asyncio.wait(..., return_when=FIRST_COMPLETED)` hands back tasks. -/
def reorder {α : Type} (order : List Nat) (l : List α) : List α :=
  order.filterMap (fun i => l.get? i)

/-- The concurrent fetch tasks launched by `load_config_from_web`: one
`get_season` per extracted season name. -/
def configTasks (fetch : Fetch) (seasons : List String) :
    List (Except PyError (Soup × String)) :=
  seasons.map (fun s => get_season fetch s)

/-- `load_config_from_web(client)`: fetch the landing page, extract the
season option texts from the id=season_name element (failing when the
element is missing or has no options), launch one fetch per season name
and drain the completions in the order given by `order`. -/
def load_config_from_web (fetch : Fetch) (order : List Nat) : Except PyError Config :=
  match fetchDoc fetch URL with
  | .error e => .error e
  | .ok soup =>
    match dictGet "season_name" soup.byId with
    | none => .error (.elementNotFound "id=season_name")
    | some opts =>
      let seasons := opts.map (fun o => o.text)
      if seasons.length = 0 then .error (.elementNotFound "option")
      else drainConfig (reorder order (configTasks fetch seasons)) []

/-- The whitespace stripped by Python around an `int()` literal. -/
def isPySpace (c : Char) : Bool :=
  c = ' ' || c = '\t' || c = '\n' || c = '\r' || c = Char.ofNat 11 || c = Char.ofNat 12

/-- Strip leading and trailing whitespace from a character list. -/
def stripChars (l : List Char) : List Char :=
  ((l.dropWhile isPySpace).reverse.dropWhile isPySpace).reverse

/-- Model of Python's `str.strip()` with no arguments. -/
def pyStrip (s : String) : String := String.mk (stripChars s.toList)

/-- Tail of a Python integer literal after its first digit: digits, with
single underscores allowed only between digits. -/
def digitGroupTail : List Char → Bool
  | [] => true
  | '_' :: [] => false
  | '_' :: c :: rest => c.isDigit && digitGroupTail rest
  | c :: rest => c.isDigit && digitGroupTail rest

/-- A Python integer literal body: a nonempty digit run with optional
single underscores between digits. -/
def digitGroupOk : List Char → Bool
  | [] => false
  | c :: rest => c.isDigit && digitGroupTail rest

/-- Model of Python's `int(s)`: strip whitespace, allow one sign, then a
digit group; `none` models the `ValueError` raised on anything else. -/
def pyInt (s : String) : Option Int :=
  let t := stripChars s.toList
  let p : Bool × List Char :=
    match t with
    | '-' :: r => (true, r)
    | '+' :: r => (false, r)
    | _ => (false, t)
  if digitGroupOk p.2 then
    let n : Int := digitsVal (p.2.filter (fun c => c ≠ '_'))
    some (if p.1 then -n else n)
  else none

/-- `s.split(sep, 1)`: the part before the first separator, and the part
after it when the separator occurs at all. -/
def splitFirst (sep : Char) : List Char → List Char × Option (List Char)
  | [] => ([], none)
  | c :: cs =>
    if c = sep then ([], some cs)
    else
      let p := splitFirst sep cs
      (c :: p.1, p.2)

def default_season_type : List String := ["例行賽", "季後賽", "總冠軍賽"]

/-- `first_year, second_year = map(int, season.split("-", 1))`: a missing
separator fails the tuple unpacking with `ValueError`, a non-integer
part fails `int` with `ValueError`. -/
def seasonKeyYears (season : String) : Except PyError (Int × Int) :=
  let p := splitFirst '-' season.toList
  match p.2 with
  | none => .error (.valueError "not enough values to unpack")
  | some secondPart =>
    match pyInt (String.mk p.1), pyInt (String.mk secondPart) with
    | some a, some b => .ok (a, b)
    | _, _ => .error (.valueError "invalid literal for int")

/-- The inner loop of `is_valid_config` over the season-type keys of one
season. -/
def checkSeasonTypes : List String → Except PyError Unit
  | [] => .ok ()
  | t :: ts =>
    if t ∈ default_season_type then checkSeasonTypes ts
    else .error (.valueError "")

/-- The loop of `is_valid_config` over the season entries: the season's
value must be a dict, the season key must split into two integers with
`first_year % 100 + 1 == second_year`, and every season-type key must be
one of the three recognized labels. -/
def checkSeasons : List (String × Jv) → Except PyError Unit
  | [] => .ok ()
  | (season, v) :: rest =>
    match v with
    | .obj inner =>
      match seasonKeyYears season with
      | .error e => .error e
      | .ok yrs =>
        if yrs.1 % 100 + 1 ≠ yrs.2 then .error (.valueError "")
        else
          match checkSeasonTypes (inner.map (fun kv => kv.1)) with
          | .error e => .error e
          | .ok _ => checkSeasons rest
    | _ => .error (.valueError "must be a dictionary containing season data")

/-- `is_valid_config(config)`: returns `()` on a valid configuration and
a `ValueError` otherwise. -/
def is_valid_config : Jv → Except PyError Unit
  | .obj fields => checkSeasons fields
  | _ => .error (.valueError "Input config must be a dictionary.")

/-- `load_from_file(filename, chunk_size)` on a file with the given
contents: read chunks of `chunk_size` characters until a read returns an
empty chunk, then join the chunks. -/
def load_from_file : Nat → List Char → List Char
  | _, [] => []
  | 0, _ :: _ => []
  | n + 1, c :: cs =>
    (c :: cs).take (n + 1) ++ load_from_file (n + 1) ((c :: cs).drop (n + 1))
termination_by _ contents => contents.length
decreasing_by
  simp [List.length_drop]
  omega

/-- The full environment of one crawler run: the network and the two
cache files (`none` models an absent file raising `FileNotFoundError`),
plus the completion orders of the two fan-out phases. -/
structure Env where
  fetch : Fetch
  configCache : Option String
  dataCache : Option String
  configOrder : List Nat
  dataOrder : List Nat

/-- The JSON view of a resolved configuration dict. -/
def configToJv (c : Config) : Jv :=
  .obj (c.map (fun p => (p.1, Jv.obj (p.2.map (fun q => (q.1, Jv.str q.2))))))

/-- The fallback branch of `load_config`: resolve from the web and, on
success, persist the fresh value to the config cache file. -/
def resolveConfigAndWrite (env : Env) : Except PyError Jv × List (String × String) :=
  match load_config_from_web env.fetch env.configOrder with
  | .error e => (.error e, [])
  | .ok config =>
    (.ok (configToJv config), [(CONFIG_FILENAME, dumps (configToJv config))])

/-- `load_config(client)`: try cache read (default chunk size 1024) +
parse + validate and return the cached value on success; a missing file,
a parse failure, or a validation failure falls through to web resolution
followed by a cache write.  The second component lists the file writes
performed. -/
def load_config (env : Env) : Except PyError Jv × List (String × String) :=
  match env.configCache with
  | some s =>
    match loads (String.mk (load_from_file 1024 s.toList)) with
    | some v =>
      match is_valid_config v with
      | .ok _ => (.ok v, [])
      | .error _ => resolveConfigAndWrite env
    | none => resolveConfigAndWrite env
  | none => resolveConfigAndWrite env

def PER_MODE : List (String × String) :=
  [("累計數據", "data-total"), ("平均數據", "data-avg")]

/-- The keys of the `STATS_NAME` table, in insertion order; only the keys
take part in the extraction (`zip(STATS_NAME, player_data)` iterates the
keys). -/
def STATS_NAME : List String :=
  ["背號", "球隊", "出賽次數", "時間 (分)", "兩分命中", "兩分出手", "兩分%",
   "三分命中", "三分出手", "三分%", "罰球命中", "罰球出手", "罰球%", "得分",
   "攻板", "防板", "籃板", "助攻", "抄截", "阻攻", "失誤", "犯規"]

abbrev Stat := List (String × String)

abbrev PageDb := List (String × List (String × Stat))

/-- `[col[data_type] for col in columns]`: collect the mode attribute of
every cell, raising `KeyError` when a cell lacks it. -/
def cellVals (mode : String) : List (List (String × String)) → Except PyError (List String)
  | [] => .ok []
  | cell :: cells =>
    match dictGet mode cell with
    | none => .error (.keyError mode)
    | some v =>
      match cellVals mode cells with
      | .ok vs => .ok (v :: vs)
      | .error e => .error e

/-- One row of the `parse_webpage` loop for one statistics mode:
`row.th.a.text.strip()` names the player (`AttributeError` when `th` or
`a` is absent), the cell values are zipped with the stat field names,
and the stat dict is stored under the player and mode. -/
def addRow (mode_name mode_attr : String) (db : PageDb) (row : HtmlRow) :
    Except PyError PageDb :=
  match row.thA with
  | none => .error (.attributeError "NoneType object has no attribute text")
  | some t =>
    let player_name := pyStrip t
    match cellVals mode_attr row.tds with
    | .error e => .error e
    | .ok player_data =>
      let stat := pyDict (STATS_NAME.zip player_data)
      let pm :=
        match dictGet player_name db with
        | none => []
        | some m => m
      .ok (dictInsert player_name (dictInsert mode_name stat pm) db)

/-- The row loop of `parse_webpage` for one statistics mode. -/
def runMode (mode_name mode_attr : String) : List HtmlRow → PageDb → Except PyError PageDb
  | [], db => .ok db
  | row :: rows, db =>
    match addRow mode_name mode_attr db row with
    | .error e => .error e
    | .ok db2 => runMode mode_name mode_attr rows db2

/-- The mode loop of `parse_webpage` over `PER_MODE.items()`. -/
def runModes : List (String × String) → List HtmlRow → PageDb → Except PyError PageDb
  | [], _, db => .ok db
  | (mn, ma) :: ms, rows, db =>
    match runMode mn ma rows db with
    | .error e => .error e
    | .ok db2 => runModes ms rows db2

/-- `parse_webpage(client, url, season, season_type)`: fetch the page and
extract the per-player statistics table.  `soup.find("tbody")` is not
checked for `None`: a missing table body reaches
`tbody.find_all("tr")` and raises a raw `AttributeError`. -/
def parse_webpage (fetch : Fetch) (url season season_type : String) :
    Except PyError (PageDb × String × String) :=
  match fetchDoc fetch url with
  | .error e => .error e
  | .ok soup =>
    match soup.tbody with
    | none => .error (.attributeError "NoneType object has no attribute find_all")
    | some rows =>
      match runModes PER_MODE rows [] with
      | .error e => .error e
      | .ok db => .ok (db, season, season_type)

abbrev Dataset := List (String × List (String × PageDb))

/-- The concurrent tasks launched by `load_data`: one `parse_webpage`
per (season, season type) leaf of the configuration.  A non-string leaf
would make `httpx` raise `TypeError`; a non-dict season value cannot
occur for a value returned by `load_config`. -/
def dataTasks (fetch : Fetch) (cfg : List (String × Jv)) :
    List (Except PyError (PageDb × String × String)) :=
  (cfg.map (fun sp =>
    match sp.2 with
    | .obj inner =>
      inner.map (fun tp =>
        match tp.2 with
        | .str url => parse_webpage fetch url sp.1 tp.1
        | _ => .error (.typeError "url must be str"))
    | _ => [.error (.typeError "season value must be dict")])).flatten

/-- `database = {}` followed by `database[season] = {}` for every season
of the configuration, before any task completes. -/
def initDb (cfg : List (String × Jv)) : Dataset :=
  cfg.foldl (fun db p => dictInsert p.1 [] db) []

/-- The drain loop of `load_data`: `await task` re-raises any task error,
otherwise `database[season][season_type] = data`. -/
def drainData : List (Except PyError (PageDb × String × String)) → Dataset →
    Except PyError Dataset
  | [], db => .ok db
  | t :: ts, db =>
    match t with
    | .error e => .error e
    | .ok (data, season, season_type) =>
      match dictGet season db with
      | none => .error (.keyError season)
      | some m => drainData ts (dictInsert season (dictInsert season_type data m) db)

/-- The JSON view of one stat dict. -/
def statToJv (s : Stat) : Jv := .obj (s.map (fun p => (p.1, Jv.str p.2)))

/-- The JSON view of one extracted page. -/
def pageDbToJv (d : PageDb) : Jv :=
  .obj (d.map (fun p => (p.1, Jv.obj (p.2.map (fun q => (q.1, statToJv q.2))))))

/-- The JSON view of the full dataset. -/
def datasetToJv (db : Dataset) : Jv :=
  .obj (db.map (fun p => (p.1, Jv.obj (p.2.map (fun q => (q.1, pageDbToJv q.2))))))

/-- The fallback branch of `load_data`: resolve the configuration through
its own cache gate, fan out one fetch per configuration leaf, drain the
completions, and on success persist the dataset to the data cache file. -/
def resolveDataAndWrite (env : Env) : Except PyError Jv × List (String × String) :=
  match load_config env with
  | (.error e, w) => (.error e, w)
  | (.ok cfgv, w) =>
    match cfgv with
    | .obj cfg =>
      match drainData (reorder env.dataOrder (dataTasks env.fetch cfg)) (initDb cfg) with
      | .error e => (.error e, w)
      | .ok db =>
        (.ok (datasetToJv db), w ++ [(DATA_FILENAME, dumps (datasetToJv db))])
    | _ => (.error (.typeError "config must be dict"), w)

/-- `load_data(client)`: try the data cache (read + parse, no
validation) and return the cached value on success; a missing file or a
parse failure falls through to full resolution followed by a cache
write. -/
def load_data (env : Env) : Except PyError Jv × List (String × String) :=
  match env.dataCache with
  | some s =>
    match loads (String.mk (load_from_file 1024 s.toList)) with
    | some v => (.ok v, [])
    | none => resolveDataAndWrite env
  | none => resolveDataAndWrite env

/-! ### Specification-side predicates and concrete test environments -/

/-- Claim-side characterization of one season key: it splits on the first
dash into two parts that both parse as integers, with
`firstYear % 100 + 1 = secondYear`. -/
def specSeasonKeyOk (s : String) : Bool :=
  match splitFirst '-' s.toList with
  | (first, some second) =>
    match pyInt (String.mk first), pyInt (String.mk second) with
    | some a, some b => a % 100 + 1 = b
    | _, _ => false
  | (_, none) => false

/-- Claim-side characterization of a valid configuration value: a mapping
whose season keys satisfy the year rule, whose season values are
mappings, and whose season-type keys all belong to the closed
three-label set. -/
def specValidConfig : Jv → Prop
  | .obj fields =>
    ∀ p ∈ fields, specSeasonKeyOk p.1 = true ∧
      ∃ inner, p.2 = Jv.obj inner ∧ ∀ q ∈ inner, q.1 ∈ default_season_type
  | _ => False

/-- A URL whose every GET attempt times out. -/
def envAlwaysTimeout : Fetch := fun _ _ => .timeout

/-- A URL whose GET times out exactly twice and then succeeds. -/
def envTimeoutTwiceThenOk : Fetch :=
  fun _ k => if k < 2 then .timeout else .ok ⟨[], none⟩

/-- The per-task extraction step of the config drain loop. -/
def extractSeason (t : Except PyError (Soup × String)) :
    Except PyError (String × List (String × String)) :=
  match t with
  | .error e => .error e
  | .ok (soup, season) =>
    match dictGet "stage_sn" soup.byId with
    | none => .error (.elementNotFound "id=stage_sn")
    | some options =>
      if options.length = 0 then .error (.elementNotFound "option")
      else
        match buildSeasonConfig season options [] with
        | .error e => .error e
        | .ok sc => .ok (season, sc)

/-- A season page exposing one season-type option with a value. -/
def soupA : Soup := ⟨[("stage_sn", [⟨"例行賽", [("value", "001")]⟩])], none⟩

/-- A second season page with a different option. -/
def soupB : Soup := ⟨[("stage_sn", [⟨"季後賽", [("value", "002")]⟩])], none⟩

/-- The player name a row contributes: `row.th.a.text.strip()`. -/
def rowPlayer (r : HtmlRow) : Option String := r.thA.map pyStrip

/-- The last row of the table naming player `p` (its stat dict is the one
that survives the per-mode row loop). -/
def lastRowNamed (p : String) : List HtmlRow → Option HtmlRow
  | [] => none
  | r :: rs =>
    match lastRowNamed p rs with
    | some r2 => some r2
    | none => if rowPlayer r = some p then some r else none

/-- The stat dict a row yields for one statistics mode. -/
def rowStat (ma : String) (r : HtmlRow) : Option Stat :=
  match cellVals ma r.tds with
  | .ok pd => some (pyDict (STATS_NAME.zip pd))
  | .error _ => none

/-- Discriminator: is this result an `ElementNotFoundError`. -/
def isElementNotFound {α : Type} : Except PyError α → Bool
  | .error (.elementNotFound _) => true
  | _ => false

/-- A page with neither id-indexed elements nor a table body. -/
def envNoTbody : Fetch := fun _ _ => .ok ⟨[], none⟩

def envNoSeasonName : Fetch := fun _ _ => .ok ⟨[], none⟩

def envEmptySeasonOpts : Fetch := fun _ _ => .ok ⟨[("season_name", [])], none⟩

def soupNoStage : Soup := ⟨[], none⟩

def soupEmptyStage : Soup := ⟨[("stage_sn", [])], none⟩

/-- One stat table row for player 王柏融 whose cells carry both a
cumulative and an average value. -/
def rowWang : HtmlRow :=
  ⟨some "王柏融",
   [[("data-total", "10"), ("data-avg", "5.0")],
    [("data-total", "3"), ("data-avg", "1.5")]]⟩

def soupTable : Soup := ⟨[], some [rowWang]⟩

def envTable : Fetch := fun _ _ => .ok soupTable

/-- The page database extracted from the one-row table. -/
def wangDb : PageDb :=
  match parse_webpage envTable "u" "2023-24" "例行賽" with
  | .ok (db, _, _) => db
  | .error _ => []

/-- The landing page and season page of the claim's concrete scenario:
one season 2023-24 whose id=stage_sn option 例行賽 carries value 001. -/
def envScenario : Fetch := fun url _ =>
  if url = URL then .ok ⟨[("season_name", [⟨"2023-24", []⟩])], none⟩
  else if url = URL ++ "/2023-24" then
    .ok ⟨[("stage_sn", [⟨"例行賽", [("value", "001")]⟩])], none⟩
  else .timeout

/-- Discriminator: did the computation succeed. -/
def exceptIsOk {ε α : Type} : Except ε α → Bool
  | .ok _ => true
  | .error _ => false

def envFailConfig : Env := ⟨(fun _ _ => .timeout), none, none, [0], [0]⟩

def envFailData : Env := ⟨envScenario, none, none, [0], [0]⟩

def envBadConfigCache : Env := ⟨(fun _ _ => .timeout), some "not json", none, [0], [0]⟩

def envInvalidConfigCache : Env := ⟨(fun _ _ => .timeout), some "[]", none, [0], [0]⟩

def envBadDataCache : Env := ⟨(fun _ _ => .timeout), none, some "not json", [0], [0]⟩

mutual

/-- Fuel measure of a JSON value: one more than the nesting depth its
parse consumes, used to bound the parser fuel. -/
def jsize : Jv → Nat
  | .null => 1
  | .bool _ => 1
  | .num _ => 1
  | .str _ => 1
  | .arr _ => 1
  | .obj fs => 1 + jsizeFields fs
termination_by v => sizeOf v

/-- Fuel measure of an object member run. -/
def jsizeFields : List (String × Jv) → Nat
  | [] => 0
  | (_, v) :: fs => 1 + jsize v + jsizeFields fs
termination_by fs => sizeOf fs

end

/-- The fragment of JSON values the resolvers produce: strings, and
objects with pairwise-distinct member keys. -/
inductive Wf : Jv → Prop where
  | str (s : String) : Wf (.str s)
  | obj (fs : List (String × Jv)) (hnd : (fs.map Prod.fst).Nodup)
      (hmem : ∀ p ∈ fs, Wf p.2) : Wf (.obj fs)

/-- Invariant of a resolved configuration: distinct season keys, and
distinct season-type keys inside each season. -/
def WfConfig (c : Config) : Prop :=
  (c.map Prod.fst).Nodup ∧ ∀ p ∈ c, (p.2.map Prod.fst).Nodup

/-- Invariant of one extracted page: distinct player keys, distinct mode
keys per player, and distinct field keys per stat dict. -/
def WfPage (d : PageDb) : Prop :=
  (d.map Prod.fst).Nodup ∧ ∀ p ∈ d, (p.2.map Prod.fst).Nodup ∧
    ∀ q ∈ p.2, (q.2.map Prod.fst).Nodup

/-- Invariant of a resolved dataset: distinct keys at every nesting
level. -/
def WfDataset (db : Dataset) : Prop :=
  (db.map Prod.fst).Nodup ∧ ∀ p ∈ db, (p.2.map Prod.fst).Nodup ∧
    ∀ q ∈ p.2, WfPage q.2

/-! ### Theorems -/

theorem load_from_file_pos (m : Nat) (cs : List Char) :
    load_from_file (m + 1) cs = cs := by
  match cs with
  | [] => simp [load_from_file]
  | c :: cs2 =>
    rw [load_from_file]
    rw [load_from_file_pos m ((c :: cs2).drop (m + 1))]
    exact List.take_append_drop _ _
termination_by cs.length
decreasing_by simp [List.length_drop]; omega

theorem load_from_file_zero (cs : List Char) : load_from_file 0 cs = [] := by
  cases cs <;> simp [load_from_file]

/-- C10: for every file contents and every chunk size at least 1, the
chunked read of `load_from_file` returns exactly the full contents,
independent of the chunk size; for chunk size 0 it returns the empty
string because the first `file.read(0)` returns an empty chunk and the
loop breaks immediately. -/
theorem load_from_file_chunk_independent (chunk_size : Nat) (contents : List Char)
    (h : 1 ≤ chunk_size) :
    load_from_file chunk_size contents = contents ∧
    load_from_file 0 contents = [] := by
  obtain ⟨m, rfl⟩ : ∃ m, chunk_size = m + 1 := ⟨chunk_size - 1, by omega⟩
  exact ⟨load_from_file_pos m contents, load_from_file_zero contents⟩

theorem load_from_file_chunk_independent_witness :
    1 ≤ 3 ∧
    (load_from_file 3 "hello world".toList = "hello world".toList ∧
     load_from_file 0 "hello world".toList = []) :=
  ⟨by decide, load_from_file_chunk_independent 3 "hello world".toList (by decide)⟩

/-- C1: evaluation of `get_soup` with the default retry budget 2 on the
two scenarios of the claim.  Against a URL that times out exactly twice
and then succeeds, the code issues 3 GET attempts, discards the
successful retry result, and still signals the timeout error — the
claim's first half (return the parsed document without error) is what
the retry logic clearly intends but not what the code does.  Against a
URL that always times out, the code signals the timeout error after
exactly 3 total GET attempts, as the claim states. -/
theorem get_soup_retry_divergence :
    get_soup envTimeoutTwiceThenOk URL 2 0 = (.error (.timeoutException URL), 3) ∧
    get_soup envAlwaysTimeout URL 2 0 = (.error (.timeoutException URL), 3) := by
  constructor <;> rfl

theorem checkSeasonTypes_ok (ts : List String) :
    checkSeasonTypes ts = .ok () ↔ ∀ t ∈ ts, t ∈ default_season_type := by
  induction ts with
  | nil => simp [checkSeasonTypes]
  | cons t ts ih =>
    by_cases h : t ∈ default_season_type <;> simp [checkSeasonTypes, h, ih]

theorem seasonKeyYears_spec (s : String) :
    specSeasonKeyOk s = true ↔
      ∃ a b : Int, seasonKeyYears s = .ok (a, b) ∧ a % 100 + 1 = b := by
  unfold specSeasonKeyOk seasonKeyYears
  rcases splitFirst '-' s.toList with ⟨first, second⟩
  cases second with
  | none => simp
  | some r =>
    simp only
    cases pyInt (String.mk first) with
    | none => simp
    | some a =>
      cases pyInt (String.mk r) with
      | none => simp
      | some b => simp [decide_eq_true_iff, eq_comm]

theorem checkSeasons_cons (season : String) (v : Jv) (rest : List (String × Jv)) :
    checkSeasons ((season, v) :: rest) = .ok () ↔
      ((specSeasonKeyOk season = true ∧
        ∃ inner, v = Jv.obj inner ∧ ∀ q ∈ inner, q.1 ∈ default_season_type) ∧
       checkSeasons rest = .ok ()) := by
  cases v with
  | obj inner =>
    rw [checkSeasons]
    rcases hy : seasonKeyYears season with e | ⟨a, b⟩
    · simp only [seasonKeyYears_spec, hy]
      simp
    · simp only
      by_cases hr : a % 100 + 1 ≠ b
      · rw [if_pos (by exact_mod_cast hr)]
        simp only [seasonKeyYears_spec, hy]
        constructor
        · intro h; exact absurd h (by simp)
        · rintro ⟨⟨⟨a2, b2, hab, heq⟩, _⟩, _⟩
          injection hab with hab2
          injection hab2 with h1 h2
          subst h1; subst h2
          exact absurd heq hr
      · push_neg at hr
        rw [if_neg (by simpa using hr)]
        rcases ht : checkSeasonTypes (inner.map (fun kv => kv.1)) with e2 | ⟨⟩
        · simp only [ht]
          constructor
          · intro h; exact absurd h (by simp)
          · rintro ⟨⟨_, inner2, hinner2, hall⟩, _⟩
            injection hinner2 with hi
            subst hi
            have hok : checkSeasonTypes (inner.map (fun kv => kv.1)) = .ok () := by
              rw [checkSeasonTypes_ok]
              intro t htm
              obtain ⟨q, hq, rfl⟩ := List.mem_map.1 htm
              exact hall q hq
            rw [hok] at ht
            cases ht
        · simp only [ht]
          constructor
          · intro h
            refine ⟨⟨?_, inner, rfl, ?_⟩, h⟩
            · rw [seasonKeyYears_spec]; exact ⟨a, b, hy, hr⟩
            · intro q hq
              have h2 := (checkSeasonTypes_ok _).1 ht
              exact h2 q.1 (List.mem_map.2 ⟨q, hq, rfl⟩)
          · rintro ⟨_, h⟩; exact h
  | null => simp [checkSeasons]
  | bool b => simp [checkSeasons]
  | num n => simp [checkSeasons]
  | str s2 => simp [checkSeasons]
  | arr xs => simp [checkSeasons]

theorem checkSeasons_ok (l : List (String × Jv)) :
    checkSeasons l = .ok () ↔
      ∀ p ∈ l, specSeasonKeyOk p.1 = true ∧
        ∃ inner, p.2 = Jv.obj inner ∧ ∀ q ∈ inner, q.1 ∈ default_season_type := by
  induction l with
  | nil => simp [checkSeasons]
  | cons p rest ih =>
    obtain ⟨season, val⟩ := p
    rw [checkSeasons_cons, ih, List.forall_mem_cons]

/-- C3: `is_valid_config` returns without error exactly on the values
that are mappings whose season keys split on the first dash into two
integers obeying `(firstYear % 100) + 1 = secondYear`, whose season
values are mappings, and whose season-type keys all belong to the
closed three-label set; on every other value (bad year rule such as
2023-25, non-integer split parts, non-mapping season values, unknown
season-type keys, or a non-mapping input) it raises a `ValueError`. -/
theorem is_valid_config_iff_spec (v : Jv) :
    is_valid_config v = .ok () ↔ specValidConfig v := by
  cases v with
  | obj fields => exact checkSeasons_ok fields
  | null => simp [is_valid_config, specValidConfig]
  | bool b => simp [is_valid_config, specValidConfig]
  | num n => simp [is_valid_config, specValidConfig]
  | str s => simp [is_valid_config, specValidConfig]
  | arr xs => simp [is_valid_config, specValidConfig]

theorem is_valid_config_iff_spec_witness :
    (is_valid_config (.obj [("2023-24", .obj [("例行賽", .str "u")])]) = .ok () ↔
      specValidConfig (.obj [("2023-24", .obj [("例行賽", .str "u")])])) ∧
    is_valid_config (.obj [("2023-25", .obj [])]) = .error (.valueError "") ∧
    is_valid_config (.obj [("2023-24", .obj [("例行賽", .str "u")])]) = .ok () :=
  ⟨is_valid_config_iff_spec _, by rfl, by rfl⟩

theorem dictGet_dictInsert {α : Type} (k k2 : String) (v : α) (d : List (String × α)) :
    dictGet k (dictInsert k2 v d) = if k2 = k then some v else dictGet k d := by
  induction d with
  | nil => simp [dictInsert, dictGet]
  | cons p rest ih =>
    obtain ⟨k3, v3⟩ := p
    by_cases h : k3 = k2
    · subst h
      by_cases h2 : k3 = k <;> simp [dictInsert, dictGet, h2]
    · by_cases h2 : k3 = k
      · subst h2
        have h3 : ¬ (k2 = k3) := fun hh => h hh.symm
        simp [dictInsert, dictGet, h, h3, ih]
      · simp [dictInsert, dictGet, h, h2, ih]

theorem drainConfig_cons (t : Except PyError (Soup × String))
    (ts : List (Except PyError (Soup × String))) (init : Config) :
    drainConfig (t :: ts) init =
      match extractSeason t with
      | .error e => .error e
      | .ok p => drainConfig ts (dictInsert p.1 p.2 init) := by
  cases t with
  | error e => rfl
  | ok sp =>
    obtain ⟨soup, season⟩ := sp
    rw [drainConfig, extractSeason]
    cases dictGet "stage_sn" soup.byId with
    | none => rfl
    | some options =>
      simp only
      by_cases h : options.length = 0
      · simp [h]
      · simp only [if_neg h]
        cases buildSeasonConfig season options [] with
        | error e => rfl
        | ok sc => rfl

theorem drainConfig_congr (ts : List (Except PyError (Soup × String)))
    (init1 init2 : Config) (h : ∀ k, dictGet k init1 = dictGet k init2) :
    (∃ c1 c2, drainConfig ts init1 = .ok c1 ∧ drainConfig ts init2 = .ok c2 ∧
      ∀ k, dictGet k c1 = dictGet k c2) ∨
    (∃ e, drainConfig ts init1 = .error e ∧ drainConfig ts init2 = .error e) := by
  induction ts generalizing init1 init2 with
  | nil => exact .inl ⟨init1, init2, rfl, rfl, h⟩
  | cons t ts ih =>
    rw [drainConfig_cons, drainConfig_cons]
    cases extractSeason t with
    | error e => exact .inr ⟨e, rfl, rfl⟩
    | ok p =>
      exact ih (dictInsert p.1 p.2 init1) (dictInsert p.1 p.2 init2)
        (fun k => by rw [dictGet_dictInsert, dictGet_dictInsert, h k])


theorem extractSeason_key (a : Soup × String) (q : String × List (String × String))
    (h : extractSeason (.ok a) = .ok q) : q.1 = a.2 := by
  obtain ⟨soup, season⟩ := a
  rw [extractSeason] at h
  cases hd : dictGet "stage_sn" soup.byId with
  | none => rw [hd] at h; cases h
  | some options =>
    rw [hd] at h
    dsimp only at h
    by_cases hl : options.length = 0
    · rw [if_pos hl] at h; cases h
    · rw [if_neg hl] at h
      cases hb : buildSeasonConfig season options [] with
      | error e => rw [hb] at h; cases h
      | ok sc => rw [hb] at h; injection h with h2; rw [← h2]

theorem drainConfig_perm (ts1 ts2 : List (Except PyError (Soup × String)))
    (hp : ts1.Perm ts2)
    (hkd : ∀ a b : Soup × String, .ok a ∈ ts1 → .ok b ∈ ts1 → a.2 = b.2 → a = b) :
    ∀ init : Config,
      (∃ c1 c2, drainConfig ts1 init = .ok c1 ∧ drainConfig ts2 init = .ok c2 ∧
        ∀ k, dictGet k c1 = dictGet k c2) ∨
      (∃ e1 e2, drainConfig ts1 init = .error e1 ∧ drainConfig ts2 init = .error e2) := by
  induction hp with
  | nil =>
    intro init
    exact .inl ⟨init, init, rfl, rfl, fun _ => rfl⟩
  | cons t p ih =>
    intro init
    rw [drainConfig_cons, drainConfig_cons]
    cases extractSeason t with
    | error e => exact .inr ⟨e, e, rfl, rfl⟩
    | ok q =>
      exact ih (fun a b ha hb => hkd a b (List.mem_cons_of_mem _ ha) (List.mem_cons_of_mem _ hb))
        (dictInsert q.1 q.2 init)
  | swap x y l =>
    intro init
    rw [drainConfig_cons, drainConfig_cons]
    cases hx : extractSeason x with
    | error e =>
      cases hy : extractSeason y with
      | error e2 => exact .inr ⟨e2, e, rfl, rfl⟩
      | ok qy =>
        dsimp only
        rw [drainConfig_cons, hx]
        exact .inr ⟨e, e, rfl, rfl⟩
    | ok qx =>
      cases hy : extractSeason y with
      | error e2 =>
        dsimp only
        rw [drainConfig_cons, hy]
        exact .inr ⟨e2, e2, rfl, rfl⟩
      | ok qy =>
        dsimp only
        rw [drainConfig_cons, drainConfig_cons, hx, hy]
        dsimp only
        have hpt : ∀ k, dictGet k (dictInsert qx.1 qx.2 (dictInsert qy.1 qy.2 init)) =
            dictGet k (dictInsert qy.1 qy.2 (dictInsert qx.1 qx.2 init)) := by
          intro k
          rw [dictGet_dictInsert, dictGet_dictInsert, dictGet_dictInsert, dictGet_dictInsert]
          by_cases h1 : qx.1 = k
          · by_cases h2 : qy.1 = k
            · cases x with
              | error e => cases hx
              | ok a =>
                cases y with
                | error e => cases hy
                | ok b =>
                  have hka := extractSeason_key a qx hx
                  have hkb := extractSeason_key b qy hy
                  have hab : a = b :=
                    hkd a b (by simp) (by simp) (by rw [← hka, ← hkb, h1, h2])
                  subst hab
                  rw [hx] at hy
                  injection hy with hy2
                  subst hy2
                  simp [h1]
            · simp [h1, h2]
          · by_cases h2 : qy.1 = k <;> simp [h1, h2]
        rcases drainConfig_congr l _ _ hpt with ⟨c1, c2, hh1, hh2, hh12⟩ | ⟨e, hh1, hh2⟩
        · exact .inl ⟨c1, c2, hh1, hh2, hh12⟩
        · exact .inr ⟨e, e, hh1, hh2⟩
  | @trans la lb lc p1 p2 ih1 ih2 =>
    intro init
    have hkd2 : ∀ a b : Soup × String, .ok a ∈ lb → .ok b ∈ lb → a.2 = b.2 → a = b :=
      fun a b ha hb => hkd a b (p1.mem_iff.mpr ha) (p1.mem_iff.mpr hb)
    rcases ih1 hkd init with ⟨c1, c2, h1, h2, h12⟩ | ⟨e1, e2, h1, h2⟩
    · rcases ih2 hkd2 init with ⟨c3, c4, h3, h4, h34⟩ | ⟨e3, e4, h3, h4⟩
      · rw [h2] at h3
        injection h3 with h3
        subst h3
        exact .inl ⟨c1, c4, h1, h4, fun k => (h12 k).trans (h34 k)⟩
      · rw [h2] at h3; cases h3
    · rcases ih2 hkd2 init with ⟨c3, c4, h3, h4, h34⟩ | ⟨e3, e4, h3, h4⟩
      · rw [h2] at h3; cases h3
      · exact .inr ⟨e1, e4, h1, h4⟩


theorem drainData_cons (t : Except PyError (PageDb × String × String))
    (ts : List (Except PyError (PageDb × String × String))) (db : Dataset) :
    drainData (t :: ts) db =
      match t with
      | .error e => .error e
      | .ok (data, season, st) =>
        match dictGet season db with
        | none => .error (.keyError season)
        | some m => drainData ts (dictInsert season (dictInsert st data m) db) := by
  cases t with
  | error e => rfl
  | ok p => obtain ⟨d, s, st⟩ := p; rfl

theorem drainData_congr (ts : List (Except PyError (PageDb × String × String)))
    (db1 db2 : Dataset)
    (hsome : ∀ s, (dictGet s db1).isSome = (dictGet s db2).isSome)
    (hget : ∀ s t2, (dictGet s db1).bind (dictGet t2) = (dictGet s db2).bind (dictGet t2)) :
    (∃ d1 d2, drainData ts db1 = .ok d1 ∧ drainData ts db2 = .ok d2 ∧
      (∀ s, (dictGet s d1).isSome = (dictGet s d2).isSome) ∧
      (∀ s t2, (dictGet s d1).bind (dictGet t2) = (dictGet s d2).bind (dictGet t2))) ∨
    (∃ e, drainData ts db1 = .error e ∧ drainData ts db2 = .error e) := by
  induction ts generalizing db1 db2 with
  | nil => exact .inl ⟨db1, db2, rfl, rfl, hsome, hget⟩
  | cons t ts ih =>
    rw [drainData_cons, drainData_cons]
    cases t with
    | error e => exact .inr ⟨e, rfl, rfl⟩
    | ok p =>
      obtain ⟨data, season, st⟩ := p
      dsimp only
      cases h1 : dictGet season db1 with
      | none =>
        have h2 : dictGet season db2 = none := by
          have := hsome season
          rw [h1] at this
          cases h2 : dictGet season db2 with
          | none => rfl
          | some m => rw [h2] at this; cases this
        rw [h2]
        exact .inr ⟨.keyError season, rfl, rfl⟩
      | some m1 =>
        have h2 : ∃ m2, dictGet season db2 = some m2 := by
          have := hsome season
          rw [h1] at this
          cases h2 : dictGet season db2 with
          | none => rw [h2] at this; cases this
          | some m => exact ⟨m, rfl⟩
        obtain ⟨m2, h2⟩ := h2
        rw [h2]
        dsimp only
        apply ih
        · intro s
          rw [dictGet_dictInsert, dictGet_dictInsert]
          by_cases hs : season = s
          · simp [hs]
          · simp only [if_neg hs]
            exact hsome s
        · intro s t2
          rw [dictGet_dictInsert, dictGet_dictInsert]
          by_cases hs : season = s
          · simp only [if_pos hs, Option.some_bind]
            rw [dictGet_dictInsert, dictGet_dictInsert]
            by_cases ht : st = t2
            · simp [ht]
            · simp only [if_neg ht]
              have := hget s t2
              rw [← hs, h1, h2] at this
              simpa using this
          · simp only [if_neg hs]
            exact hget s t2


theorem drainData_congr2 (ts : List (Except PyError (PageDb × String × String)))
    (db1 db2 : Dataset)
    (hsome : ∀ s, (dictGet s db1).isSome = (dictGet s db2).isSome)
    (hget : ∀ s t2, (dictGet s db1).bind (dictGet t2) = (dictGet s db2).bind (dictGet t2)) :
    (∃ d1 d2, drainData ts db1 = .ok d1 ∧ drainData ts db2 = .ok d2 ∧
      (∀ s, (dictGet s d1).isSome = (dictGet s d2).isSome) ∧
      (∀ s t2, (dictGet s d1).bind (dictGet t2) = (dictGet s d2).bind (dictGet t2))) ∨
    (∃ e1 e2, drainData ts db1 = .error e1 ∧ drainData ts db2 = .error e2) := by
  rcases drainData_congr ts db1 db2 hsome hget with h | ⟨e, h1, h2⟩
  · exact .inl h
  · exact .inr ⟨e, e, h1, h2⟩

theorem drainData_perm (ts1 ts2 : List (Except PyError (PageDb × String × String)))
    (hp : ts1.Perm ts2)
    (hkd : ∀ a b : PageDb × String × String, .ok a ∈ ts1 → .ok b ∈ ts1 → a.2 = b.2 → a = b) :
    ∀ db : Dataset,
      (∃ d1 d2, drainData ts1 db = .ok d1 ∧ drainData ts2 db = .ok d2 ∧
        (∀ s, (dictGet s d1).isSome = (dictGet s d2).isSome) ∧
        (∀ s t2, (dictGet s d1).bind (dictGet t2) = (dictGet s d2).bind (dictGet t2))) ∨
      (∃ e1 e2, drainData ts1 db = .error e1 ∧ drainData ts2 db = .error e2) := by
  induction hp with
  | nil =>
    intro db
    exact .inl ⟨db, db, rfl, rfl, fun _ => rfl, fun _ _ => rfl⟩
  | cons t p ih =>
    intro db
    rw [drainData_cons, drainData_cons]
    cases t with
    | error e => exact .inr ⟨e, e, rfl, rfl⟩
    | ok q =>
      obtain ⟨data, season, st⟩ := q
      dsimp only
      cases h1 : dictGet season db with
      | none => exact .inr ⟨.keyError season, .keyError season, rfl, rfl⟩
      | some m =>
        exact ih (fun a b ha hb => hkd a b (List.mem_cons_of_mem _ ha) (List.mem_cons_of_mem _ hb))
          (dictInsert season (dictInsert st data m) db)
  | swap x y l =>
    intro db
    rw [drainData_cons, drainData_cons]
    cases x with
    | error e =>
      cases y with
      | error e2 => exact .inr ⟨e2, e, rfl, rfl⟩
      | ok qy =>
        obtain ⟨d2, s2, t2⟩ := qy
        dsimp only
        cases h2 : dictGet s2 db with
        | none => exact .inr ⟨.keyError s2, e, rfl, rfl⟩
        | some m2 =>
          dsimp only
          rw [drainData_cons]
          exact .inr ⟨e, e, rfl, rfl⟩
    | ok qx =>
      obtain ⟨d1, s1, t1⟩ := qx
      cases y with
      | error e2 =>
        dsimp only
        cases h1 : dictGet s1 db with
        | none => exact .inr ⟨e2, .keyError s1, rfl, rfl⟩
        | some m1 =>
          dsimp only
          rw [drainData_cons]
          exact .inr ⟨e2, e2, rfl, rfl⟩
      | ok qy =>
        obtain ⟨d2, s2, t2⟩ := qy
        dsimp only
        by_cases hss : s1 = s2
        · -- same top-level key
          subst hss
          cases h1 : dictGet s1 db with
          | none => exact .inr ⟨.keyError s1, .keyError s1, rfl, rfl⟩
          | some m =>
            dsimp only
            rw [drainData_cons, drainData_cons]
            dsimp only
            rw [dictGet_dictInsert, dictGet_dictInsert]
            simp only [if_pos rfl]
            by_cases htt : t1 = t2
            · -- identical key pair forces identical tasks
              have hab : (d2, s1, t2) = (d1, s1, t1) := by
                apply hkd _ _ (by simp) (by simp)
                simp [htt]
              injection hab with hd hrest
              injection hrest with hs ht
              subst hd; subst ht
              apply drainData_congr2
              · intro s
                by_cases hs2 : s1 = s <;> simp [dictGet_dictInsert, hs2]
              · intro s u
                by_cases hs2 : s1 = s
                · by_cases hu : t2 = u <;> simp [dictGet_dictInsert, hs2, hu]
                · simp [dictGet_dictInsert, hs2]
            · apply drainData_congr2
              · intro s
                by_cases hs2 : s1 = s <;> simp [dictGet_dictInsert, hs2]
              · intro s u
                by_cases hs2 : s1 = s
                · by_cases hu1 : t1 = u
                  · have hu2 : ¬ (t2 = u) := fun hh => htt (hu1.trans hh.symm)
                    simp [dictGet_dictInsert, hs2, hu1, hu2]
                  · by_cases hu2 : t2 = u <;> simp [dictGet_dictInsert, hs2, hu1, hu2]
                · simp [dictGet_dictInsert, hs2]
        · -- distinct top-level keys
          cases h2 : dictGet s2 db with
          | none =>
            cases h1 : dictGet s1 db with
            | none => exact .inr ⟨.keyError s2, .keyError s1, rfl, rfl⟩
            | some m1 =>
              dsimp only
              rw [drainData_cons]
              dsimp only
              rw [dictGet_dictInsert]
              have hne : ¬ (s1 = s2) := hss
              rw [if_neg hne, h2]
              exact .inr ⟨.keyError s2, .keyError s2, rfl, rfl⟩
          | some m2 =>
            cases h1 : dictGet s1 db with
            | none =>
              dsimp only
              rw [drainData_cons]
              dsimp only
              rw [dictGet_dictInsert]
              have hne : ¬ (s2 = s1) := fun hh => hss hh.symm
              rw [if_neg hne, h1]
              exact .inr ⟨.keyError s1, .keyError s1, rfl, rfl⟩
            | some m1 =>
              dsimp only
              rw [drainData_cons, drainData_cons]
              dsimp only
              rw [dictGet_dictInsert, dictGet_dictInsert]
              have hne : ¬ (s2 = s1) := fun hh => hss hh.symm
              rw [if_neg hne, if_neg hss, h1, h2]
              dsimp only
              apply drainData_congr2
              · intro s
                by_cases ha : s1 = s
                · have hb : ¬ (s2 = s) := fun hh => hss (ha.trans hh.symm)
                  simp [dictGet_dictInsert, ha, hb]
                · by_cases hb : s2 = s <;> simp [dictGet_dictInsert, ha, hb]
              · intro s u
                by_cases ha : s1 = s
                · have hb : ¬ (s2 = s) := fun hh => hss (ha.trans hh.symm)
                  simp [dictGet_dictInsert, ha, hb]
                · by_cases hb : s2 = s <;> simp [dictGet_dictInsert, ha, hb]
  | @trans la lb lc p1 p2 ih1 ih2 =>
    intro db
    have hkd2 : ∀ a b : PageDb × String × String, .ok a ∈ lb → .ok b ∈ lb → a.2 = b.2 → a = b :=
      fun a b ha hb => hkd a b (p1.mem_iff.mpr ha) (p1.mem_iff.mpr hb)
    rcases ih1 hkd db with ⟨d1, d2, h1, h2, h12s, h12g⟩ | ⟨e1, e2, h1, h2⟩
    · rcases ih2 hkd2 db with ⟨d3, d4, h3, h4, h34s, h34g⟩ | ⟨e3, e4, h3, h4⟩
      · rw [h2] at h3
        injection h3 with h3
        subst h3
        exact .inl ⟨d1, d4, h1, h4, fun s => (h12s s).trans (h34s s),
          fun s u => (h12g s u).trans (h34g s u)⟩
      · rw [h2] at h3; cases h3
    · rcases ih2 hkd2 db with ⟨d3, d4, h3, h4, h34s, h34g⟩ | ⟨e3, e4, h3, h4⟩
      · rw [h2] at h3; cases h3
      · exact .inr ⟨e1, e4, h1, h4⟩


/-- C8: for every fixed set of per-task results in a fan-out phase
(each key corresponding to a unique task result, as the generated
fan-outs guarantee), draining them in any completion order yields the
same final keyed structure: the drained Config mappings agree on every
key lookup and the drained Dataset mappings agree on every nested
(season, season-type) lookup, for every permutation of the completion
order; when a drain aborts, it aborts under every order. -/
theorem fanout_merge_order_independent :
    (∀ (ts1 ts2 : List (Except PyError (Soup × String))) (init : Config),
      ts1.Perm ts2 →
      (∀ a b : Soup × String, .ok a ∈ ts1 → .ok b ∈ ts1 → a.2 = b.2 → a = b) →
      ((∃ c1 c2, drainConfig ts1 init = .ok c1 ∧ drainConfig ts2 init = .ok c2 ∧
        ∀ k, dictGet k c1 = dictGet k c2) ∨
       (∃ e1 e2, drainConfig ts1 init = .error e1 ∧ drainConfig ts2 init = .error e2))) ∧
    (∀ (ts1 ts2 : List (Except PyError (PageDb × String × String))) (db : Dataset),
      ts1.Perm ts2 →
      (∀ a b : PageDb × String × String, .ok a ∈ ts1 → .ok b ∈ ts1 → a.2 = b.2 → a = b) →
      ((∃ d1 d2, drainData ts1 db = .ok d1 ∧ drainData ts2 db = .ok d2 ∧
        (∀ s, (dictGet s d1).isSome = (dictGet s d2).isSome) ∧
        (∀ s t2, (dictGet s d1).bind (dictGet t2) = (dictGet s d2).bind (dictGet t2))) ∨
       (∃ e1 e2, drainData ts1 db = .error e1 ∧ drainData ts2 db = .error e2))) :=
  ⟨fun ts1 ts2 init hp hkd => drainConfig_perm ts1 ts2 hp hkd init,
   fun ts1 ts2 db hp hkd => drainData_perm ts1 ts2 hp hkd db⟩

theorem fanout_merge_order_independent_witness :
    (∃ c1 c2,
      drainConfig [.ok (soupA, "2023-24"), .ok (soupB, "2024-25")] [] = .ok c1 ∧
      drainConfig [.ok (soupB, "2024-25"), .ok (soupA, "2023-24")] [] = .ok c2 ∧
      ∀ k, dictGet k c1 = dictGet k c2) ∨
    (∃ e1 e2,
      drainConfig [.ok (soupA, "2023-24"), .ok (soupB, "2024-25")] [] = .error e1 ∧
      drainConfig [.ok (soupB, "2024-25"), .ok (soupA, "2023-24")] [] = .error e2) := by
  apply fanout_merge_order_independent.1
  · exact List.Perm.swap _ _ _
  · intro a b ha hb hab
    rcases List.mem_cons.1 ha with h | h
    · injection h with h
      rcases List.mem_cons.1 hb with h2 | h2
      · injection h2 with h2
        rw [h, h2]
      · rcases List.mem_cons.1 h2 with h3 | h3
        · injection h3 with h3
          rw [h, h3] at hab
          simp at hab
        · cases h3
    · rcases List.mem_cons.1 h with h3 | h3
      · injection h3 with h3
        rcases List.mem_cons.1 hb with h2 | h2
        · injection h2 with h2
          rw [h3, h2] at hab
          simp at hab
        · rcases List.mem_cons.1 h2 with h4 | h4
          · injection h4 with h4
            rw [h3, h4]
          · cases h4
      · cases h3

theorem lastRowNamed_mem (p : String) (rows : List HtmlRow) (r : HtmlRow)
    (h : lastRowNamed p rows = some r) : r ∈ rows ∧ rowPlayer r = some p := by
  induction rows with
  | nil => cases h
  | cons r0 rs ih =>
    rw [lastRowNamed] at h
    cases h2 : lastRowNamed p rs with
    | some r2 =>
      rw [h2] at h
      injection h with h
      subst h
      obtain ⟨hm, hp⟩ := ih h2
      exact ⟨List.mem_cons_of_mem _ hm, hp⟩
    | none =>
      rw [h2] at h
      dsimp only at h
      by_cases hr : rowPlayer r0 = some p
      · rw [if_pos hr] at h
        injection h with h
        subst h
        exact ⟨List.mem_cons_self _ _, hr⟩
      · rw [if_neg hr] at h
        cases h

theorem runMode_rows_ok (mn ma : String) (rows : List HtmlRow) (db db2 : PageDb)
    (h : runMode mn ma rows db = .ok db2) :
    ∀ r ∈ rows, ∃ t pd, r.thA = some t ∧ cellVals ma r.tds = .ok pd := by
  induction rows generalizing db with
  | nil => intro r hr; cases hr
  | cons r0 rs ih =>
    rw [runMode] at h
    cases ha : addRow mn ma db r0 with
    | error e => rw [ha] at h; cases h
    | ok db3 =>
      rw [ha] at h
      intro r hr
      rcases List.mem_cons.1 hr with rfl | hm
      · rw [addRow] at ha
        cases ht : r.thA with
        | none => rw [ht] at ha; cases ha
        | some t =>
          rw [ht] at ha
          dsimp only at ha
          cases hc : cellVals ma r.tds with
          | error e => rw [hc] at ha; cases ha
          | ok pd => exact ⟨t, pd, rfl, rfl⟩
      · exact ih db3 h r hm

theorem runMode_mode_lookup (mn ma : String) (rows : List HtmlRow) (db db2 : PageDb)
    (h : runMode mn ma rows db = .ok db2) (p mode : String) :
    (dictGet p db2).bind (dictGet mode) =
      if mode = mn then
        match lastRowNamed p rows with
        | some r => rowStat ma r
        | none => (dictGet p db).bind (dictGet mode)
      else (dictGet p db).bind (dictGet mode) := by
  induction rows generalizing db with
  | nil =>
    rw [runMode] at h
    injection h with h
    subst h
    rw [lastRowNamed]
    by_cases hm : mode = mn <;> simp [hm]
  | cons r0 rs ih =>
    rw [runMode] at h
    cases ha : addRow mn ma db r0 with
    | error e => rw [ha] at h; cases h
    | ok db3 =>
      rw [ha] at h
      have ihh := ih db3 h
      rw [addRow] at ha
      cases ht : r0.thA with
      | none => rw [ht] at ha; cases ha
      | some t =>
        rw [ht] at ha
        dsimp only at ha
        cases hc : cellVals ma r0.tds with
        | error e => rw [hc] at ha; cases ha
        | ok pd =>
          rw [hc] at ha
          dsimp only at ha
          injection ha with ha
          rw [lastRowNamed]
          have hother : ∀ _ : ¬ (mode = mn),
              (dictGet p db3).bind (dictGet mode) = (dictGet p db).bind (dictGet mode) := by
            intro hm
            rw [← ha, dictGet_dictInsert]
            by_cases hpt : pyStrip t = p
            · rw [if_pos hpt, Option.some_bind, dictGet_dictInsert,
                if_neg (fun hh => hm hh.symm), hpt]
              cases hg : dictGet p db with
              | none => simp [dictGet]
              | some m => simp
            · rw [if_neg hpt]
          cases hl : lastRowNamed p rs with
          | some r2 =>
            rw [ihh, hl]
            by_cases hm : mode = mn
            · simp [hm]
            · simp only [if_neg hm]
              exact hother hm
          | none =>
            rw [ihh, hl]
            dsimp only
            by_cases hr : rowPlayer r0 = some p
            · have hpt : pyStrip t = p := by
                rw [rowPlayer, ht] at hr
                injection hr
              rw [if_pos hr]
              by_cases hm : mode = mn
              · subst hm
                rw [if_pos rfl, if_pos rfl, ← ha, dictGet_dictInsert, if_pos hpt,
                  Option.some_bind, dictGet_dictInsert, if_pos rfl]
                simp only [rowStat, hc]
              · rw [if_neg hm, if_neg hm]
                exact hother hm
            · have hpt : ¬ (pyStrip t = p) := fun hh => hr (by rw [rowPlayer, ht]; simp [hh])
              rw [if_neg hr]
              by_cases hm : mode = mn
              · subst hm
                rw [if_pos rfl, if_pos rfl, ← ha, dictGet_dictInsert, if_neg hpt]
              · rw [if_neg hm, if_neg hm]
                exact hother hm


theorem cellVals_length (ma : String) (tds : List (List (String × String)))
    (pd : List String) (h : cellVals ma tds = .ok pd) : pd.length = tds.length := by
  induction tds generalizing pd with
  | nil =>
    rw [cellVals] at h
    injection h with h
    subst h
    rfl
  | cons c cs ih =>
    rw [cellVals] at h
    cases hg : dictGet ma c with
    | none => rw [hg] at h; cases h
    | some v =>
      rw [hg] at h
      dsimp only at h
      cases hc : cellVals ma cs with
      | error e => rw [hc] at h; cases h
      | ok vs =>
        rw [hc] at h
        injection h with h
        subst h
        simp [ih vs hc]

theorem zip_map_fst_congr {α β : Type} (a : List α) (b1 b2 : List β)
    (h : b1.length = b2.length) :
    (a.zip b1).map Prod.fst = (a.zip b2).map Prod.fst := by
  induction a generalizing b1 b2 with
  | nil => simp
  | cons x xs ih =>
    cases b1 with
    | nil =>
      cases b2 with
      | nil => simp
      | cons y ys => cases h
    | cons y1 ys1 =>
      cases b2 with
      | nil => cases h
      | cons y2 ys2 =>
        simp only [List.zip_cons_cons, List.map_cons]
        rw [ih ys1 ys2 (by simpa using h)]

theorem dictInsert_map_fst {α : Type} (k : String) (v : α) (d : List (String × α)) :
    (dictInsert k v d).map Prod.fst =
      if k ∈ d.map Prod.fst then d.map Prod.fst else d.map Prod.fst ++ [k] := by
  induction d with
  | nil => simp [dictInsert]
  | cons p rest ih =>
    by_cases h : p.1 = k
    · obtain ⟨k2, v2⟩ := p
      dsimp only at h
      subst h
      simp [dictInsert]
    · obtain ⟨k2, v2⟩ := p
      dsimp only at h
      rw [dictInsert]
      rw [if_neg h]
      simp only [List.map_cons]
      rw [ih]
      have h2 : ¬ (k = k2) := fun hh => h hh.symm
      by_cases hm : k ∈ rest.map Prod.fst
      · simp [hm, h2]
      · simp [hm, h2]

theorem pyDict_foldl_map_fst_congr {α β : Type} (l1 : List (String × α)) (l2 : List (String × β))
    (d1 : List (String × α)) (d2 : List (String × β))
    (hl : l1.map Prod.fst = l2.map Prod.fst) (hd : d1.map Prod.fst = d2.map Prod.fst) :
    (l1.foldl (fun d kv => dictInsert kv.1 kv.2 d) d1).map Prod.fst =
    (l2.foldl (fun d kv => dictInsert kv.1 kv.2 d) d2).map Prod.fst := by
  induction l1 generalizing l2 d1 d2 with
  | nil =>
    cases l2 with
    | nil => simpa using hd
    | cons q l2 => cases hl
  | cons p l1 ih =>
    cases l2 with
    | nil => cases hl
    | cons q l2 =>
      simp only [List.map_cons, List.cons.injEq] at hl
      obtain ⟨hpq, hl⟩ := hl
      simp only [List.foldl_cons]
      apply ih l2 _ _ hl
      rw [dictInsert_map_fst, dictInsert_map_fst, hd, hpq]

theorem pyDict_map_fst_congr {α β : Type} (l1 : List (String × α)) (l2 : List (String × β))
    (hl : l1.map Prod.fst = l2.map Prod.fst) :
    (pyDict l1).map Prod.fst = (pyDict l2).map Prod.fst :=
  pyDict_foldl_map_fst_congr l1 l2 [] [] hl rfl

theorem dictInsert_mem_fst {α : Type} (k k2 : String) (v : α) (d : List (String × α))
    (h : k2 ∈ (dictInsert k v d).map Prod.fst) : k2 ∈ d.map Prod.fst ∨ k2 = k := by
  rw [dictInsert_map_fst] at h
  by_cases hm : k ∈ d.map Prod.fst
  · rw [if_pos hm] at h
    exact .inl h
  · rw [if_neg hm] at h
    rcases List.mem_append.1 h with h2 | h2
    · exact .inl h2
    · simp at h2
      exact .inr h2

theorem foldl_insert_keys_sub (l : List (String × String)) (k : String) :
    ∀ d : List (String × String),
      k ∈ (l.foldl (fun d kv => dictInsert kv.1 kv.2 d) d).map Prod.fst →
      k ∈ d.map Prod.fst ∨ k ∈ l.map Prod.fst := by
  induction l with
  | nil => intro d hd; exact .inl hd
  | cons p rest ih =>
    intro d hd
    simp only [List.foldl_cons] at hd
    rcases ih (dictInsert p.1 p.2 d) hd with h2 | h2
    · rcases dictInsert_mem_fst p.1 k p.2 d h2 with h3 | h3
      · exact .inl h3
      · exact .inr (by simp [h3])
    · exact .inr (by simp [h2])

theorem pyDict_keys_sub (l : List (String × String)) (k : String)
    (h : k ∈ (pyDict l).map Prod.fst) : k ∈ l.map Prod.fst := by
  rcases foldl_insert_keys_sub l k [] h with h2 | h2
  · cases h2
  · exact h2


theorem zip_fst_mem {α β : Type} (a : List α) (b : List β) (k : α)
    (h : k ∈ (a.zip b).map Prod.fst) : k ∈ a := by
  obtain ⟨⟨x, y⟩, hm, rfl⟩ := List.mem_map.1 h
  exact (List.of_mem_zip hm).1

/-- C9 (main theorem): for every stat table page whose rows all parse and
that contains a row naming player `p` (the last such row being `r`), the
extracted per-page map contains, for `p`, entries under both 累計數據 and
平均數據, and the two entries have identical field-name key lists drawn
from the fixed ordered `STATS_NAME` field list. -/
theorem parse_webpage_both_modes (fetch : Fetch) (url season season_type : String)
    (soup : Soup) (rows : List HtmlRow) (db : PageDb) (p : String) (r : HtmlRow)
    (hf : fetchDoc fetch url = .ok soup)
    (htb : soup.tbody = some rows)
    (hp : parse_webpage fetch url season season_type = .ok (db, season, season_type))
    (hr : lastRowNamed p rows = some r) :
    ∃ s1 s2,
      (dictGet p db).bind (dictGet "累計數據") = some s1 ∧
      (dictGet p db).bind (dictGet "平均數據") = some s2 ∧
      s1.map Prod.fst = s2.map Prod.fst ∧
      ∀ k ∈ s1.map Prod.fst, k ∈ STATS_NAME := by
  rw [parse_webpage, hf] at hp
  dsimp only at hp
  rw [htb] at hp
  dsimp only at hp
  cases hm : runModes PER_MODE rows [] with
  | error e => rw [hm] at hp; cases hp
  | ok dbF =>
    rw [hm] at hp
    injection hp with hp
    injection hp with hp hrest
    subst hp
    rw [PER_MODE, runModes] at hm
    cases h1 : runMode "累計數據" "data-total" rows [] with
    | error e => rw [h1] at hm; cases hm
    | ok db1 =>
      rw [h1] at hm
      dsimp only at hm
      rw [runModes] at hm
      cases h2 : runMode "平均數據" "data-avg" rows db1 with
      | error e => rw [h2] at hm; cases hm
      | ok db2 =>
        rw [h2] at hm
        dsimp only at hm
        rw [runModes] at hm
        injection hm with hm
        subst hm
        obtain ⟨hrm, hrp⟩ := lastRowNamed_mem p rows r hr
        obtain ⟨t1, pd1, hth1, hcv1⟩ := runMode_rows_ok _ _ rows [] db1 h1 r hrm
        obtain ⟨t2, pd2, hth2, hcv2⟩ := runMode_rows_ok _ _ rows db1 db2 h2 r hrm
        have hl1 := runMode_mode_lookup _ _ rows [] db1 h1 p "累計數據"
        have hl2c := runMode_mode_lookup _ _ rows db1 db2 h2 p "累計數據"
        have hl2a := runMode_mode_lookup _ _ rows db1 db2 h2 p "平均數據"
        rw [hr] at hl1
        rw [if_pos rfl] at hl1
        rw [if_neg (by decide)] at hl2c
        rw [hr, if_pos rfl] at hl2a
        refine ⟨pyDict (STATS_NAME.zip pd1), pyDict (STATS_NAME.zip pd2), ?_, ?_, ?_, ?_⟩
        · rw [hl2c, hl1]
          simp only [rowStat, hcv1]
        · rw [hl2a]
          simp only [rowStat, hcv2]
        · apply pyDict_map_fst_congr
          apply zip_map_fst_congr
          rw [cellVals_length _ _ _ hcv1, cellVals_length _ _ _ hcv2]
        · intro k hk
          exact zip_fst_mem _ _ _ (pyDict_keys_sub _ _ hk)


/-- C5 (counterexample): a page without a table body makes
`parse_webpage` raise a raw `AttributeError` from
`tbody.find_all("tr")`, not an `ElementNotFoundError` as the claim
states for the data table body. -/
theorem parse_webpage_tbody_counterexample :
    parse_webpage envNoTbody "u" "2023-24" "例行賽" =
      .error (.attributeError "NoneType object has no attribute find_all") ∧
    isElementNotFound (parse_webpage envNoTbody "u" "2023-24" "例行賽") = false := by
  constructor <;> rfl

/-- C5 (amended): config extraction signals `ElementNotFoundError` when
the landing page's id=season_name element is missing or its option list
is empty and when a season page's id=stage_sn element is missing or its
option list is empty, and `MissingAttributeError` when a season-type
option lacks its value attribute; table extraction does not use the
typed errors: a missing table body and a missing row header anchor
raise raw `AttributeError`s, and a missing data-cell attribute raises a
raw `KeyError`. -/
theorem extraction_error_kinds :
    (∀ (fetch : Fetch) (order : List Nat) (soup : Soup), fetchDoc fetch URL = .ok soup →
      dictGet "season_name" soup.byId = none →
      load_config_from_web fetch order = .error (.elementNotFound "id=season_name")) ∧
    (∀ (fetch : Fetch) (order : List Nat) (soup : Soup), fetchDoc fetch URL = .ok soup →
      dictGet "season_name" soup.byId = some [] →
      load_config_from_web fetch order = .error (.elementNotFound "option")) ∧
    (∀ (ts : List (Except PyError (Soup × String))) (config : Config) (soup : Soup)
      (season : String), dictGet "stage_sn" soup.byId = none →
      drainConfig (.ok (soup, season) :: ts) config = .error (.elementNotFound "id=stage_sn")) ∧
    (∀ (ts : List (Except PyError (Soup × String))) (config : Config) (soup : Soup)
      (season : String), dictGet "stage_sn" soup.byId = some [] →
      drainConfig (.ok (soup, season) :: ts) config = .error (.elementNotFound "option")) ∧
    (∀ (season : String) (opts : List HtmlOption) (acc : List (String × String)),
      (∃ o ∈ opts, dictGet "value" o.attrs = none) →
      buildSeasonConfig season opts acc = .error (.missingAttribute "option" "value")) ∧
    (∀ (fetch : Fetch) (url season st : String) (soup : Soup),
      fetchDoc fetch url = .ok soup → soup.tbody = none →
      parse_webpage fetch url season st =
        .error (.attributeError "NoneType object has no attribute find_all")) ∧
    (∀ (ma : String) (tds : List (List (String × String))),
      (∃ cell ∈ tds, dictGet ma cell = none) →
      cellVals ma tds = .error (.keyError ma)) ∧
    (∀ (mn ma : String) (db : PageDb) (row : HtmlRow), row.thA = none →
      addRow mn ma db row = .error (.attributeError "NoneType object has no attribute text")) := by
  refine ⟨?_, ?_, ?_, ?_, ?_, ?_, ?_, ?_⟩
  · intro fetch order soup hf hs
    rw [load_config_from_web, hf]
    dsimp only
    rw [hs]
  · intro fetch order soup hf hs
    rw [load_config_from_web, hf]
    dsimp only
    rw [hs]
    rfl
  · intro ts config soup season hs
    rw [drainConfig, hs]
  · intro ts config soup season hs
    rw [drainConfig, hs]
    rfl
  · intro season opts acc hex
    induction opts generalizing acc with
    | nil => obtain ⟨o, ho, _⟩ := hex; cases ho
    | cons o os ih =>
      rw [buildSeasonConfig]
      cases hv : dictGet "value" o.attrs with
      | none => rfl
      | some v =>
        dsimp only
        obtain ⟨o2, ho2, hv2⟩ := hex
        rcases List.mem_cons.1 ho2 with rfl | hm
        · rw [hv] at hv2; cases hv2
        · exact ih _ ⟨o2, hm, hv2⟩
  · intro fetch url season st soup hf ht
    rw [parse_webpage, hf]
    dsimp only
    rw [ht]
  · intro ma tds hex
    induction tds with
    | nil => obtain ⟨c, hc, _⟩ := hex; cases hc
    | cons c cs ih =>
      rw [cellVals]
      cases hv : dictGet ma c with
      | none => rfl
      | some v =>
        dsimp only
        obtain ⟨c2, hc2, hv2⟩ := hex
        rcases List.mem_cons.1 hc2 with rfl | hm
        · rw [hv] at hv2; cases hv2
        · rw [ih ⟨c2, hm, hv2⟩]
  · intro mn ma db row ht
    rw [addRow, ht]


theorem extraction_error_kinds_witness :
    load_config_from_web envNoSeasonName [] = .error (.elementNotFound "id=season_name") ∧
    load_config_from_web envEmptySeasonOpts [] = .error (.elementNotFound "option") ∧
    drainConfig [.ok (soupNoStage, "2023-24")] [] = .error (.elementNotFound "id=stage_sn") ∧
    drainConfig [.ok (soupEmptyStage, "2023-24")] [] = .error (.elementNotFound "option") ∧
    buildSeasonConfig "2023-24" [⟨"例行賽", []⟩] [] = .error (.missingAttribute "option" "value") ∧
    parse_webpage envNoTbody "u" "2023-24" "例行賽" =
      .error (.attributeError "NoneType object has no attribute find_all") ∧
    cellVals "data-total" [[]] = .error (.keyError "data-total") ∧
    addRow "累計數據" "data-total" [] ⟨none, []⟩ =
      .error (.attributeError "NoneType object has no attribute text") :=
  ⟨extraction_error_kinds.1 envNoSeasonName [] ⟨[], none⟩ rfl rfl,
   extraction_error_kinds.2.1 envEmptySeasonOpts [] ⟨[("season_name", [])], none⟩ rfl rfl,
   extraction_error_kinds.2.2.1 [] [] soupNoStage "2023-24" rfl,
   extraction_error_kinds.2.2.2.1 [] [] soupEmptyStage "2023-24" rfl,
   extraction_error_kinds.2.2.2.2.1 "2023-24" [⟨"例行賽", []⟩] [] ⟨⟨"例行賽", []⟩, by simp, rfl⟩,
   extraction_error_kinds.2.2.2.2.2.1 envNoTbody "u" "2023-24" "例行賽" ⟨[], none⟩ rfl rfl,
   extraction_error_kinds.2.2.2.2.2.2.1 "data-total" [[]] ⟨[], by simp, rfl⟩,
   extraction_error_kinds.2.2.2.2.2.2.2 "累計數據" "data-total" [] ⟨none, []⟩ rfl⟩


theorem parse_webpage_both_modes_witness :
    ∃ s1 s2,
      (dictGet "王柏融" wangDb).bind (dictGet "累計數據") = some s1 ∧
      (dictGet "王柏融" wangDb).bind (dictGet "平均數據") = some s2 ∧
      s1.map Prod.fst = s2.map Prod.fst ∧
      ∀ k ∈ s1.map Prod.fst, k ∈ STATS_NAME :=
  parse_webpage_both_modes envTable "u" "2023-24" "例行賽" soupTable [rowWang] wangDb
    "王柏融" rowWang rfl rfl rfl (by decide)

theorem dictInsert_mem_fst_iff {α : Type} (k k2 : String) (v : α) (d : List (String × α)) :
    k2 ∈ (dictInsert k v d).map Prod.fst ↔ k2 ∈ d.map Prod.fst ∨ k2 = k := by
  rw [dictInsert_map_fst]
  by_cases hm : k ∈ d.map Prod.fst
  · rw [if_pos hm]
    constructor
    · exact .inl
    · rintro (h | rfl)
      · exact h
      · exact hm
  · rw [if_neg hm]
    simp

theorem dictInsert_nodup_fst {α : Type} (k : String) (v : α) (d : List (String × α))
    (h : (d.map Prod.fst).Nodup) : ((dictInsert k v d).map Prod.fst).Nodup := by
  rw [dictInsert_map_fst]
  by_cases hm : k ∈ d.map Prod.fst
  · rw [if_pos hm]; exact h
  · rw [if_neg hm]
    rw [List.nodup_append]
    refine ⟨h, List.nodup_singleton _, ?_⟩
    intro a ha hb
    simp at hb
    subst hb
    exact hm ha

theorem drainConfig_tasks_ok (ts : List (Except PyError (Soup × String))) (init c : Config)
    (h : drainConfig ts init = .ok c) :
    ∀ t ∈ ts, ∃ q, extractSeason t = .ok q := by
  induction ts generalizing init with
  | nil => intro t ht; cases ht
  | cons t0 ts ih =>
    rw [drainConfig_cons] at h
    cases he : extractSeason t0 with
    | error e => rw [he] at h; cases h
    | ok q =>
      rw [he] at h
      intro t ht
      rcases List.mem_cons.1 ht with rfl | hm
      · exact ⟨q, he⟩
      · exact ih (dictInsert q.1 q.2 init) h t hm

theorem drainConfig_keys_nodup (ts : List (Except PyError (Soup × String))) (init c : Config)
    (h : drainConfig ts init = .ok c) (hnd : (init.map Prod.fst).Nodup) :
    (c.map Prod.fst).Nodup := by
  induction ts generalizing init with
  | nil =>
    rw [drainConfig] at h
    injection h with h
    subst h
    exact hnd
  | cons t0 ts ih =>
    rw [drainConfig_cons] at h
    cases he : extractSeason t0 with
    | error e => rw [he] at h; cases h
    | ok q =>
      rw [he] at h
      exact ih (dictInsert q.1 q.2 init) h (dictInsert_nodup_fst _ _ _ hnd)

theorem drainConfig_mem_keys (ts : List (Except PyError (Soup × String))) (init c : Config)
    (h : drainConfig ts init = .ok c) (k : String) :
    k ∈ c.map Prod.fst ↔
      k ∈ init.map Prod.fst ∨ ∃ t ∈ ts, ∃ q, extractSeason t = .ok q ∧ q.1 = k := by
  induction ts generalizing init with
  | nil =>
    rw [drainConfig] at h
    injection h with h
    subst h
    simp
  | cons t0 ts ih =>
    rw [drainConfig_cons] at h
    cases he : extractSeason t0 with
    | error e => rw [he] at h; cases h
    | ok q =>
      rw [he] at h
      rw [ih (dictInsert q.1 q.2 init) h, dictInsert_mem_fst_iff]
      constructor
      · rintro ((hm | rfl) | ⟨t, ht, q2, he2, hk⟩)
        · exact .inl hm
        · exact .inr ⟨t0, by simp, q, he, rfl⟩
        · exact .inr ⟨t, List.mem_cons_of_mem _ ht, q2, he2, hk⟩
      · rintro (hm | ⟨t, ht, q2, he2, hk⟩)
        · exact .inl (.inl hm)
        · rcases List.mem_cons.1 ht with rfl | hm2
          · rw [he] at he2
            injection he2 with he2
            subst he2
            exact .inl (.inr hk.symm)
          · exact .inr ⟨t, hm2, q2, he2, hk⟩

theorem drainConfig_get_stable (ts : List (Except PyError (Soup × String))) (init c : Config)
    (h : drainConfig ts init = .ok c) (k : String) (v : List (String × String))
    (hall : ∀ t ∈ ts, ∀ q, extractSeason t = .ok q → q.1 = k → q.2 = v)
    (hinit : dictGet k init = some v) : dictGet k c = some v := by
  induction ts generalizing init with
  | nil =>
    rw [drainConfig] at h
    injection h with h
    subst h
    exact hinit
  | cons t0 ts ih =>
    rw [drainConfig_cons] at h
    cases he : extractSeason t0 with
    | error e => rw [he] at h; cases h
    | ok q =>
      rw [he] at h
      apply ih (dictInsert q.1 q.2 init) h
      · intro t ht q2 he2 hk
        exact hall t (List.mem_cons_of_mem _ ht) q2 he2 hk
      · rw [dictGet_dictInsert]
        by_cases hk : q.1 = k
        · rw [if_pos hk]
          rw [hall t0 (by simp) q he hk]
        · rw [if_neg hk]
          exact hinit

theorem drainConfig_get_unique (ts : List (Except PyError (Soup × String))) (init c : Config)
    (h : drainConfig ts init = .ok c) (t : Except PyError (Soup × String))
    (q : String × List (String × String))
    (ht : t ∈ ts) (he : extractSeason t = .ok q)
    (huniq : ∀ t2 ∈ ts, ∀ q2, extractSeason t2 = .ok q2 → q2.1 = q.1 → q2 = q) :
    dictGet q.1 c = some q.2 := by
  induction ts generalizing init with
  | nil => cases ht
  | cons t0 ts ih =>
    rw [drainConfig_cons] at h
    cases he0 : extractSeason t0 with
    | error e => rw [he0] at h; cases h
    | ok q0 =>
      rw [he0] at h
      rcases List.mem_cons.1 ht with rfl | hm
      · rw [he0] at he
        injection he with he
        subst he
        apply drainConfig_get_stable ts _ c h
        · intro t2 ht2 q2 he2 hk
          have := huniq t2 (List.mem_cons_of_mem _ ht2) q2 he2 hk
          rw [this]
        · rw [dictGet_dictInsert, if_pos rfl]
      · exact ih (dictInsert q0.1 q0.2 init) h hm (fun t2 ht2 => huniq t2 (List.mem_cons_of_mem _ ht2))


theorem get_season_ok (fetch : Fetch) (s : String) (a : Soup × String)
    (h : get_season fetch s = .ok a) :
    a.2 = s ∧ fetchDoc fetch (URL ++ "/" ++ s) = .ok a.1 := by
  rw [get_season] at h
  cases hf : fetchDoc fetch (URL ++ "/" ++ s) with
  | error e => rw [hf] at h; cases h
  | ok soup =>
    rw [hf] at h
    injection h with h
    subst h
    exact ⟨rfl, rfl⟩

theorem buildSeasonConfig_stable (season : String) (opts : List HtmlOption)
    (acc sc : List (String × String)) (k : String)
    (h : buildSeasonConfig season opts acc = .ok sc)
    (hnone : ∀ o ∈ opts, ¬ (o.text = k)) :
    dictGet k sc = dictGet k acc := by
  induction opts generalizing acc with
  | nil =>
    rw [buildSeasonConfig] at h
    injection h with h
    subst h
    rfl
  | cons o os ih =>
    rw [buildSeasonConfig] at h
    cases hv : dictGet "value" o.attrs with
    | none => rw [hv] at h; cases h
    | some v =>
      rw [hv] at h
      dsimp only at h
      rw [ih _ h (fun o2 ho2 => hnone o2 (List.mem_cons_of_mem _ ho2))]
      rw [dictGet_dictInsert, if_neg (hnone o (by simp))]

theorem buildSeasonConfig_get (season : String) (opts : List HtmlOption)
    (acc sc : List (String × String)) (o : HtmlOption) (v : String)
    (h : buildSeasonConfig season opts acc = .ok sc)
    (ho : o ∈ opts) (hnd : (opts.map (fun x => x.text)).Nodup)
    (hv : dictGet "value" o.attrs = some v) :
    dictGet o.text sc = some (URL ++ "/" ++ season ++ "/" ++ v ++ "#record") := by
  induction opts generalizing acc with
  | nil => cases ho
  | cons o0 os ih =>
    rw [buildSeasonConfig] at h
    cases hv0 : dictGet "value" o0.attrs with
    | none => rw [hv0] at h; cases h
    | some v0 =>
      rw [hv0] at h
      dsimp only at h
      rcases List.mem_cons.1 ho with rfl | hm
      · rw [hv0] at hv
        injection hv with hv
        subst hv
        rw [buildSeasonConfig_stable season os _ sc o.text h ?hno]
        · rw [dictGet_dictInsert, if_pos rfl]
        case hno =>
          intro o2 ho2 he
          simp only [List.map_cons, List.nodup_cons] at hnd
          exact hnd.1 (he ▸ List.mem_map.2 ⟨o2, ho2, rfl⟩)
      · simp only [List.map_cons, List.nodup_cons] at hnd
        exact ih _ h hm hnd.2


/-- C6: for every landing page whose season option list yields N
distinct season names, Config resolution launches exactly N concurrent
season fetches (`configTasks`), and when the whole resolution succeeds
the resulting Config has exactly N top-level keys and each entry
`config[season][option.text]` equals `URL/season/value#record` built
from that option's value attribute; in particular the concrete scenario
with one season 2023-24 and one option 例行賽 with value 001 resolves to
exactly that one-entry Config. -/
theorem load_config_from_web_spec (fetch : Fetch) (order : List Nat) (soup : Soup)
    (opts : List HtmlOption) (config : Config)
    (hf : fetchDoc fetch URL = .ok soup)
    (hs : dictGet "season_name" soup.byId = some opts)
    (hnd : (opts.map (fun o => o.text)).Nodup)
    (hperm : (reorder order (configTasks fetch (opts.map (fun o => o.text)))).Perm
             (configTasks fetch (opts.map (fun o => o.text))))
    (hok : load_config_from_web fetch order = .ok config) :
    (configTasks fetch (opts.map (fun o => o.text))).length = opts.length ∧
    config.length = opts.length ∧
    (∀ season ∈ opts.map (fun o => o.text), ∀ soup2 opts2,
      fetchDoc fetch (URL ++ "/" ++ season) = .ok soup2 →
      dictGet "stage_sn" soup2.byId = some opts2 →
      (opts2.map (fun o => o.text)).Nodup →
      ∀ o ∈ opts2, ∀ v, dictGet "value" o.attrs = some v →
        ∃ sc, dictGet season config = some sc ∧
          dictGet o.text sc = some (URL ++ "/" ++ season ++ "/" ++ v ++ "#record")) ∧
    load_config_from_web envScenario [0] =
      .ok [("2023-24", [("例行賽", URL ++ "/2023-24/001#record")])] := by
  rw [load_config_from_web, hf] at hok
  dsimp only at hok
  rw [hs] at hok
  dsimp only at hok
  by_cases hlen : (opts.map (fun o => o.text)).length = 0
  · rw [if_pos hlen] at hok; cases hok
  · rw [if_neg hlen] at hok
    -- each task of the generated fan-out is determined by its season
    have htask : ∀ t ∈ reorder order (configTasks fetch (opts.map (fun o => o.text))),
        ∃ s ∈ opts.map (fun o => o.text), t = get_season fetch s := by
      intro t ht
      have ht2 := hperm.mem_iff.mp ht
      rw [configTasks] at ht2
      obtain ⟨s, hsm, rfl⟩ := List.mem_map.1 ht2
      exact ⟨s, hsm, rfl⟩
    have hkey : ∀ t ∈ reorder order (configTasks fetch (opts.map (fun o => o.text))),
        ∀ q, extractSeason t = .ok q → ∃ s ∈ opts.map (fun o => o.text),
          t = get_season fetch s ∧ q.1 = s := by
      intro t ht q he
      obtain ⟨s, hsm, rfl⟩ := htask t ht
      cases hts : get_season fetch s with
      | error e => rw [hts] at he; cases he
      | ok a =>
        rw [hts] at he
        obtain ⟨ha2, -⟩ := get_season_ok fetch s a hts
        exact ⟨s, hsm, hts.symm, (extractSeason_key a q he).trans ha2⟩
    refine ⟨by simp [configTasks], ?_, ?_, by rfl⟩
    · -- exactly N top-level keys
      have hndk := drainConfig_keys_nodup _ _ _ hok (by simp)
      have hmem : ∀ k, k ∈ config.map Prod.fst ↔ k ∈ opts.map (fun o => o.text) := by
        intro k
        rw [drainConfig_mem_keys _ _ _ hok k]
        constructor
        · rintro (hm | ⟨t, ht, q, he, rfl⟩)
          · simp at hm
          · obtain ⟨s, hsm, -, hqs⟩ := hkey t ht q he
            rw [hqs]
            exact hsm
        · intro hm
          have hin : get_season fetch k ∈
              reorder order (configTasks fetch (opts.map (fun o => o.text))) := by
            apply hperm.mem_iff.mpr
            rw [configTasks]
            exact List.mem_map.2 ⟨k, hm, rfl⟩
          obtain ⟨q, he⟩ := drainConfig_tasks_ok _ _ _ hok _ hin
          obtain ⟨s, hsm, heq, hqs⟩ := hkey _ hin q he
          exact .inr ⟨get_season fetch k, hin, q, he, by
            cases hts : get_season fetch k with
            | error e => rw [hts] at he; cases he
            | ok a =>
              rw [hts] at he
              obtain ⟨ha2, -⟩ := get_season_ok fetch k a hts
              exact (extractSeason_key a q he).trans ha2⟩
      have hpp : (config.map Prod.fst).Perm (opts.map (fun o => o.text)) :=
        (List.perm_ext_iff_of_nodup hndk hnd).mpr hmem
      have := hpp.length_eq
      simpa using this
    · -- the per-entry URL formula
      intro season hsm soup2 opts2 hf2 hs2 hnd2 o ho v hv
      have hin : get_season fetch season ∈
          reorder order (configTasks fetch (opts.map (fun o => o.text))) := by
        apply hperm.mem_iff.mpr
        rw [configTasks]
        exact List.mem_map.2 ⟨season, hsm, rfl⟩
      obtain ⟨q, he⟩ := drainConfig_tasks_ok _ _ _ hok _ hin
      cases hts : get_season fetch season with
      | error e => rw [hts] at he; cases he
      | ok a =>
        rw [hts] at he
        have hts2 := hts
        rw [get_season, hf2] at hts2
        dsimp only at hts2
        injection hts2 with hts2
        subst hts2
        rw [extractSeason] at he
        rw [hs2] at he
        dsimp only at he
        by_cases hl2 : opts2.length = 0
        · rw [if_pos hl2] at he; cases he
        · rw [if_neg hl2] at he
          cases hb : buildSeasonConfig season opts2 [] with
          | error e => rw [hb] at he; cases he
          | ok sc =>
            rw [hb] at he
            injection he with he
            subst he
            refine ⟨sc, ?_, ?_⟩
            · -- dictGet season config = some sc
              have he3 : extractSeason (get_season fetch season) = .ok (season, sc) := by
                rw [hts, extractSeason, hs2]
                dsimp only
                rw [if_neg hl2, hb]
              have huq : ∀ t2 ∈ reorder order (configTasks fetch (opts.map (fun o => o.text))),
                  ∀ q2, extractSeason t2 = .ok q2 →
                    q2.1 = (season, sc).1 → q2 = (season, sc) := by
                intro t2 ht2 q2 he2 hk2
                obtain ⟨s2, hs2m, heq2, hqs2⟩ := hkey t2 ht2 q2 he2
                dsimp only at hk2
                rw [hqs2] at hk2
                rw [hk2] at heq2
                rw [heq2, he3] at he2
                injection he2 with he2
                exact he2.symm
              exact drainConfig_get_unique _ _ _ hok _ _ hin he3 huq
            · exact buildSeasonConfig_get season opts2 [] sc o v hb ho hnd2 hv


theorem load_config_from_web_spec_witness :
    (configTasks envScenario (([⟨"2023-24", []⟩] : List HtmlOption).map (fun o => o.text))).length
        = ([⟨"2023-24", []⟩] : List HtmlOption).length ∧
    ([("2023-24", [("例行賽", URL ++ "/2023-24/001#record")])] : Config).length
        = ([⟨"2023-24", []⟩] : List HtmlOption).length ∧
    (∀ season ∈ ([⟨"2023-24", []⟩] : List HtmlOption).map (fun o => o.text), ∀ soup2 opts2,
      fetchDoc envScenario (URL ++ "/" ++ season) = .ok soup2 →
      dictGet "stage_sn" soup2.byId = some opts2 →
      (opts2.map (fun o => o.text)).Nodup →
      ∀ o ∈ opts2, ∀ v, dictGet "value" o.attrs = some v →
        ∃ sc, dictGet season [("2023-24", [("例行賽", URL ++ "/2023-24/001#record")])]
            = some sc ∧
          dictGet o.text sc = some (URL ++ "/" ++ season ++ "/" ++ v ++ "#record")) ∧
    load_config_from_web envScenario [0] =
      .ok [("2023-24", [("例行賽", URL ++ "/2023-24/001#record")])] :=
  load_config_from_web_spec envScenario [0]
    ⟨[("season_name", [⟨"2023-24", []⟩])], none⟩ [⟨"2023-24", []⟩]
    [("2023-24", [("例行賽", URL ++ "/2023-24/001#record")])]
    rfl rfl (by simp) (List.Perm.refl _) rfl

theorem load_config_cases (env : Env) :
    (∃ v, load_config env = (.ok v, [])) ∨
    (∃ e, load_config env = (.error e, [])) ∨
    (∃ config, load_config env =
      (.ok (configToJv config), [(CONFIG_FILENAME, dumps (configToJv config))])) := by
  rw [load_config]
  cases env.configCache with
  | none =>
    rw [resolveConfigAndWrite]
    cases load_config_from_web env.fetch env.configOrder with
    | error e => exact .inr (.inl ⟨e, rfl⟩)
    | ok config => exact .inr (.inr ⟨config, rfl⟩)
  | some s =>
    dsimp only
    cases loads (String.mk (load_from_file 1024 s.toList)) with
    | none =>
      rw [resolveConfigAndWrite]
      cases load_config_from_web env.fetch env.configOrder with
      | error e => exact .inr (.inl ⟨e, rfl⟩)
      | ok config => exact .inr (.inr ⟨config, rfl⟩)
    | some v =>
      dsimp only
      cases is_valid_config v with
      | error e =>
        rw [resolveConfigAndWrite]
        cases load_config_from_web env.fetch env.configOrder with
        | error e2 => exact .inr (.inl ⟨e2, rfl⟩)
        | ok config => exact .inr (.inr ⟨config, rfl⟩)
      | ok u => exact .inl ⟨v, rfl⟩

theorem load_config_writes_shape (env : Env) :
    (load_config env).2 = [] ∨
      ∃ c, (load_config env).2 = [(CONFIG_FILENAME, c)] := by
  rcases load_config_cases env with ⟨v, hv⟩ | ⟨e, he⟩ | ⟨config, hc⟩
  · rw [hv]; exact .inl rfl
  · rw [he]; exact .inl rfl
  · rw [hc]; exact .inr ⟨_, rfl⟩

theorem load_data_cases (env : Env) :
    (∃ v, load_data env = (.ok v, [])) ∨
    (∃ e, load_data env = (.error e, (load_config env).2)) ∨
    (∃ db, load_data env =
      (.ok (datasetToJv db), (load_config env).2 ++ [(DATA_FILENAME, dumps (datasetToJv db))])) := by
  rw [load_data]
  have hres : (∃ e, resolveDataAndWrite env = (.error e, (load_config env).2)) ∨
      (∃ db, resolveDataAndWrite env =
        (.ok (datasetToJv db), (load_config env).2 ++ [(DATA_FILENAME, dumps (datasetToJv db))])) := by
    rw [resolveDataAndWrite]
    rcases hlc : load_config env with ⟨r, w⟩
    have hw : w = (load_config env).2 := by rw [hlc]
    cases r with
    | error e => exact .inl ⟨e, by rw [hw]⟩
    | ok cfgv =>
      cases cfgv with
      | obj cfg =>
        dsimp only
        cases drainData (reorder env.dataOrder (dataTasks env.fetch cfg)) (initDb cfg) with
        | error e => exact .inl ⟨e, by rw [hw]⟩
        | ok db => exact .inr ⟨db, by rw [hw]⟩
      | null => exact .inl ⟨_, by rw [hw]⟩
      | bool b => exact .inl ⟨_, by rw [hw]⟩
      | num n => exact .inl ⟨_, by rw [hw]⟩
      | str s2 => exact .inl ⟨_, by rw [hw]⟩
      | arr xs => exact .inl ⟨_, by rw [hw]⟩
  cases env.dataCache with
  | none =>
    rcases hres with ⟨e, he⟩ | ⟨db, hdb⟩
    · exact .inr (.inl ⟨e, he⟩)
    · exact .inr (.inr ⟨db, hdb⟩)
  | some s =>
    dsimp only
    cases loads (String.mk (load_from_file 1024 s.toList)) with
    | some v => exact .inl ⟨v, rfl⟩
    | none =>
      rcases hres with ⟨e, he⟩ | ⟨db, hdb⟩
      · exact .inr (.inl ⟨e, he⟩)
      · exact .inr (.inr ⟨db, hdb⟩)

/-- C2: a failed resolution phase signals its error and never persists a
partial value to the phase's cache file.  On any config gate failure no
file write at all is performed, and with a cold config cache the
network error propagates unchanged; on any data gate failure the data
cache file is not among the performed writes, and with a cold data
cache the data drain error propagates unchanged. -/
theorem failed_phase_writes_nothing :
    (∀ env : Env, exceptIsOk (load_config env).1 = false → (load_config env).2 = []) ∧
    (∀ env : Env, exceptIsOk (load_data env).1 = false →
      ¬ (DATA_FILENAME ∈ (load_data env).2.map Prod.fst)) ∧
    (∀ (env : Env) (e : PyError), env.configCache = none →
      load_config_from_web env.fetch env.configOrder = .error e →
      load_config env = (.error e, [])) ∧
    (∀ (env : Env) (cfg : List (String × Jv)) (w : List (String × String)) (e : PyError),
      env.dataCache = none →
      load_config env = (.ok (.obj cfg), w) →
      drainData (reorder env.dataOrder (dataTasks env.fetch cfg)) (initDb cfg) = .error e →
      load_data env = (.error e, w)) := by
  refine ⟨?_, ?_, ?_, ?_⟩
  · intro env h
    rcases load_config_cases env with ⟨v, hv⟩ | ⟨e, he⟩ | ⟨config, hc⟩
    · rw [hv] at h; cases h
    · rw [he]
    · rw [hc] at h; cases h
  · intro env h
    rcases load_data_cases env with ⟨v, hv⟩ | ⟨e, he⟩ | ⟨db, hdb⟩
    · rw [hv] at h; cases h
    · rw [he]
      dsimp only
      rcases load_config_writes_shape env with hw | ⟨c, hw⟩ <;> rw [hw]
      · simp
      · intro hmem
        simp only [List.map_cons, List.map_nil, List.mem_singleton] at hmem
        exact absurd hmem (by decide)
    · rw [hdb] at h; cases h
  · intro env e hc hweb
    rw [load_config, hc, resolveConfigAndWrite, hweb]
  · intro env cfg w e hd hlc hdrain
    rw [load_data, hd, resolveDataAndWrite, hlc]
    dsimp only
    rw [hdrain]


theorem failed_phase_writes_nothing_witness :
    load_config envFailConfig = (.error (.timeoutException URL), []) ∧
    load_data envFailData =
      (.error (.timeoutException (URL ++ "/2023-24/001#record")),
       [(CONFIG_FILENAME,
         dumps (configToJv [("2023-24", [("例行賽", URL ++ "/2023-24/001#record")])]))]) ∧
    ¬ (DATA_FILENAME ∈ (load_data envFailData).2.map Prod.fst) := by
  have h1 := failed_phase_writes_nothing.2.2.1 envFailConfig (.timeoutException URL) rfl rfl
  have h2 := failed_phase_writes_nothing.2.2.2 envFailData
    [("2023-24", Jv.obj [("例行賽", Jv.str (URL ++ "/2023-24/001#record"))])]
    [(CONFIG_FILENAME,
      dumps (configToJv [("2023-24", [("例行賽", URL ++ "/2023-24/001#record")])]))]
    (.timeoutException (URL ++ "/2023-24/001#record")) rfl rfl rfl
  have h3 := failed_phase_writes_nothing.2.1 envFailData (by rw [h2]; rfl)
  exact ⟨h1, h2, h3⟩


theorem resolveConfigAndWrite_cache_irrelevant (env : Env) :
    resolveConfigAndWrite { env with configCache := none } = resolveConfigAndWrite env := rfl

theorem resolveDataAndWrite_cache_irrelevant (env : Env) :
    resolveDataAndWrite { env with dataCache := none } = resolveDataAndWrite env := rfl

/-- C4: a cache file whose contents fail to parse (and, for the config
file, a parsed value failing validation) makes the cache gate behave
exactly as a missing file: the gate resolves a fresh value from the
network, persists it, and returns it, and no parse or validation error
reaches the caller. -/
theorem invalid_cache_like_missing :
    (∀ (env : Env) (s : String), env.configCache = some s →
      (loads (String.mk (load_from_file 1024 s.toList)) = none ∨
       (∃ v e, loads (String.mk (load_from_file 1024 s.toList)) = some v ∧
         is_valid_config v = .error e)) →
      load_config env = load_config { env with configCache := none }) ∧
    (∀ (env : Env) (s : String), env.dataCache = some s →
      loads (String.mk (load_from_file 1024 s.toList)) = none →
      load_data env = load_data { env with dataCache := none }) := by
  constructor
  · intro env s hc hbad
    have hr : load_config { env with configCache := none } = resolveConfigAndWrite env := by
      rw [load_config]
      exact resolveConfigAndWrite_cache_irrelevant env
    rw [load_config, hc]
    dsimp only
    rcases hbad with hn | ⟨v, e, hv, he⟩
    · rw [hn, hr]
    · rw [hv]
      dsimp only
      rw [he]
      dsimp only
      rw [hr]
  · intro env s hd hn
    have hr : load_data { env with dataCache := none } = resolveDataAndWrite env := by
      rw [load_data]
      exact resolveDataAndWrite_cache_irrelevant env
    rw [load_data, hd]
    dsimp only
    rw [hn, hr]

theorem invalid_cache_like_missing_witness :
    load_config envBadConfigCache = load_config { envBadConfigCache with configCache := none } ∧
    load_config envInvalidConfigCache =
      load_config { envInvalidConfigCache with configCache := none } ∧
    load_data envBadDataCache = load_data { envBadDataCache with dataCache := none } := by
  have hread1 : load_from_file 1024 ("not json".toList) = "not json".toList :=
    load_from_file_pos 1023 _
  have hread2 : load_from_file 1024 ("[]".toList) = "[]".toList :=
    load_from_file_pos 1023 _
  refine ⟨?_, ?_, ?_⟩
  · exact invalid_cache_like_missing.1 envBadConfigCache "not json" rfl
      (.inl (by rw [hread1]; rfl))
  · exact invalid_cache_like_missing.1 envInvalidConfigCache "[]" rfl
      (.inr ⟨.arr [], .valueError "Input config must be a dictionary.",
        by rw [hread2]; rfl, rfl⟩)
  · exact invalid_cache_like_missing.2 envBadDataCache "not json" rfl
      (by rw [hread1]; rfl)

end Crawler
namespace Crawler

theorem hexVal_hexDigit : ∀ n < 16, hexVal (hexDigit n) = some n := by decide

theorem skipWs_newline (l : List Char) : skipWs ('\n' :: l) = skipWs l := by
  simp [skipWs, isWs]

theorem skipWs_space (l : List Char) : skipWs (' ' :: l) = skipWs l := by
  simp [skipWs, isWs]

theorem skipWs_replicate_space (m : Nat) (l : List Char) :
    skipWs (List.replicate m ' ' ++ l) = skipWs l := by
  induction m with
  | zero => rfl
  | succ m ih => simpa [List.replicate_succ, skipWs, isWs] using ih

theorem skipWs_ind (n : Nat) (l : List Char) : skipWs (ind n ++ l) = skipWs l := by
  rw [ind]
  exact skipWs_replicate_space _ _

theorem skipWs_quote (l : List Char) : skipWs ('\"' :: l) = '\"' :: l := by
  simp [skipWs, isWs]

theorem skipWs_skipWs (l : List Char) : skipWs (skipWs l) = skipWs l := by
  induction l with
  | nil => rfl
  | cons c cs ih =>
    by_cases h : isWs c = true
    · simp [skipWs, h, ih]
    · rw [skipWs, if_neg (by simp [h]), skipWs, if_neg (by simp [h])]

theorem parseVal_skipWs (fuel : Nat) (cs : List Char) :
    parseVal fuel (skipWs cs) = parseVal fuel cs := by
  cases fuel with
  | zero => rfl
  | succ f =>
    rw [parseVal, parseVal, skipWs_skipWs]

theorem parseMembers_skipWs (fuel : Nat) (cs : List Char) :
    parseMembers fuel (skipWs cs) = parseMembers fuel cs := by
  cases fuel with
  | zero => rfl
  | succ f =>
    rw [parseMembers, parseMembers, skipWs_skipWs]

end Crawler
namespace Crawler

theorem parseStrBody_escStr (s : List Char) (rest : List Char) :
    parseStrBody (escStr s ++ '\"' :: rest) = some (s, rest) := by
  induction s with
  | nil =>
    rw [escStr, List.nil_append, parseStrBody.eq_def]
    dsimp only
    rw [if_pos rfl]
  | cons c cs ih =>
    rw [escStr, List.append_assoc, escChar]
    by_cases h1 : c = '\\'
    · subst h1
      rw [if_pos rfl]
      simp only [List.cons_append, List.nil_append]
      rw [parseStrBody.eq_def]
      dsimp only
      rw [if_neg (by decide), if_pos rfl, if_neg (by decide),
        show decEsc '\\' = some '\\' from rfl]
      dsimp only
      rw [ih]
    · by_cases h2 : c = '\"'
      · subst h2
        rw [if_neg (by decide), if_pos rfl]
        simp only [List.cons_append, List.nil_append]
        rw [parseStrBody.eq_def]
        dsimp only
        rw [if_neg (by decide), if_pos rfl, if_neg (by decide),
          show decEsc '\"' = some '\"' from rfl]
        dsimp only
        rw [ih]
      · by_cases h3 : c = Char.ofNat 8
        · subst h3
          rw [if_neg (by decide), if_neg (by decide), if_pos rfl]
          simp only [List.cons_append, List.nil_append]
          rw [parseStrBody.eq_def]
          dsimp only
          rw [if_neg (by decide), if_pos rfl, if_neg (by decide),
            show decEsc 'b' = some (Char.ofNat 8) from rfl]
          dsimp only
          rw [ih]
        · by_cases h4 : c = Char.ofNat 9
          · subst h4
            rw [if_neg (by decide), if_neg (by decide), if_neg (by decide), if_pos rfl]
            simp only [List.cons_append, List.nil_append]
            rw [parseStrBody.eq_def]
            dsimp only
            rw [if_neg (by decide), if_pos rfl, if_neg (by decide),
              show decEsc 't' = some (Char.ofNat 9) from rfl]
            dsimp only
            rw [ih]
          · by_cases h5 : c = Char.ofNat 10
            · subst h5
              rw [if_neg (by decide), if_neg (by decide), if_neg (by decide),
                if_neg (by decide), if_pos rfl]
              simp only [List.cons_append, List.nil_append]
              rw [parseStrBody.eq_def]
              dsimp only
              rw [if_neg (by decide), if_pos rfl, if_neg (by decide),
                show decEsc 'n' = some (Char.ofNat 10) from rfl]
              dsimp only
              rw [ih]
            · by_cases h6 : c = Char.ofNat 12
              · subst h6
                rw [if_neg (by decide), if_neg (by decide), if_neg (by decide),
                  if_neg (by decide), if_neg (by decide), if_pos rfl]
                simp only [List.cons_append, List.nil_append]
                rw [parseStrBody.eq_def]
                dsimp only
                rw [if_neg (by decide), if_pos rfl, if_neg (by decide),
                  show decEsc 'f' = some (Char.ofNat 12) from rfl]
                dsimp only
                rw [ih]
              · by_cases h7 : c = Char.ofNat 13
                · subst h7
                  rw [if_neg (by decide), if_neg (by decide), if_neg (by decide),
                    if_neg (by decide), if_neg (by decide), if_neg (by decide), if_pos rfl]
                  simp only [List.cons_append, List.nil_append]
                  rw [parseStrBody.eq_def]
                  dsimp only
                  rw [if_neg (by decide), if_pos rfl, if_neg (by decide),
                    show decEsc 'r' = some (Char.ofNat 13) from rfl]
                  dsimp only
                  rw [ih]
                · by_cases h8 : c.toNat < 32
                  · rw [if_neg h1, if_neg h2, if_neg h3, if_neg h4, if_neg h5,
                      if_neg h6, if_neg h7, if_pos h8]
                    simp only [List.cons_append, List.nil_append]
                    rw [parseStrBody.eq_def]
                    dsimp only
                    rw [if_neg (by decide), if_pos rfl, if_pos rfl]
                    have hd2 : hexVal (hexDigit (c.toNat / 16)) = some (c.toNat / 16) :=
                      hexVal_hexDigit _ (by omega)
                    have hd3 : hexVal (hexDigit (c.toNat % 16)) = some (c.toNat % 16) :=
                      hexVal_hexDigit _ (by omega)
                    rw [show hexVal '0' = some 0 from by decide, hd2, hd3]
                    dsimp only
                    rw [ih]
                    have hc : ((0 * 16 + 0) * 16 + c.toNat / 16) * 16 + c.toNat % 16 = c.toNat := by
                      omega
                    rw [hc, Char.ofNat_toNat]
                  · rw [if_neg h1, if_neg h2, if_neg h3, if_neg h4, if_neg h5,
                      if_neg h6, if_neg h7, if_neg h8]
                    simp only [List.cons_append, List.nil_append]
                    rw [parseStrBody.eq_def]
                    dsimp only
                    rw [if_neg h2, if_neg h1, if_neg h8, ih]

end Crawler
namespace Crawler

theorem string_mk_toList (s : String) : String.mk s.toList = s := rfl

theorem jsize_pos (v : Jv) : 1 ≤ jsize v := by
  cases v <;> simp only [jsize] <;> omega

theorem skipWs_not_ws (c : Char) (l : List Char) (h : isWs c = false) :
    skipWs (c :: l) = c :: l := by
  rw [skipWs, if_neg (by simp [h])]

theorem dictInsert_mem {α : Type} (k : String) (v : α) (d : List (String × α)) :
    ∀ p ∈ dictInsert k v d, p = (k, v) ∨ p ∈ d := by
  induction d with
  | nil =>
    intro p hp
    rw [dictInsert] at hp
    exact .inl (List.mem_singleton.1 hp)
  | cons q d ih =>
    obtain ⟨k2, v2⟩ := q
    intro p hp
    rw [dictInsert] at hp
    by_cases hk : k2 = k
    · rw [if_pos hk] at hp
      rcases List.mem_cons.1 hp with rfl | hm
      · exact .inl rfl
      · exact .inr (List.mem_cons_of_mem _ hm)
    · rw [if_neg hk] at hp
      rcases List.mem_cons.1 hp with rfl | hm
      · exact .inr (List.mem_cons_self _ _)
      · rcases ih p hm with h1 | h2
        · exact .inl h1
        · exact .inr (List.mem_cons_of_mem _ h2)

theorem dictGet_mem {α : Type} (k : String) (d : List (String × α)) (v : α)
    (h : dictGet k d = some v) : (k, v) ∈ d := by
  induction d with
  | nil => cases h
  | cons q d ih =>
    obtain ⟨k2, v2⟩ := q
    rw [dictGet] at h
    by_cases hk : k2 = k
    · rw [if_pos hk] at h
      injection h with h
      subst h
      subst hk
      exact List.mem_cons_self _ _
    · rw [if_neg hk] at h
      exact List.mem_cons_of_mem _ (ih h)

theorem reorder_mem {α : Type} (order : List Nat) (l : List α) :
    ∀ t ∈ reorder order l, t ∈ l := by
  intro t ht
  rw [reorder] at ht
  rcases List.mem_filterMap.1 ht with ⟨i, hi, hg⟩
  exact List.get?_mem hg

theorem dictInsert_append {α : Type} (k : String) (v : α) (d : List (String × α))
    (h : k ∉ d.map Prod.fst) : dictInsert k v d = d ++ [(k, v)] := by
  induction d with
  | nil => rfl
  | cons q d ih =>
    obtain ⟨k2, v2⟩ := q
    rw [List.map_cons] at h
    simp only [List.mem_cons] at h
    push_neg at h
    rw [dictInsert, if_neg (fun hh => h.1 hh.symm), List.cons_append, ih h.2]

theorem pyDict_foldl_append {α : Type} (l : List (String × α)) :
    ∀ init : List (String × α),
      ((init.map Prod.fst) ++ (l.map Prod.fst)).Nodup →
      l.foldl (fun d kv => dictInsert kv.1 kv.2 d) init = init ++ l := by
  induction l with
  | nil => intro init h; simp
  | cons q l ih =>
    obtain ⟨k, v⟩ := q
    intro init h
    rw [List.foldl_cons]
    have hdisj := (List.nodup_append.1 h).2.2
    have hk : k ∉ init.map Prod.fst := by
      intro hm
      exact hdisj hm (by simp)
    have h2 : (((init ++ [(k, v)]).map Prod.fst) ++ l.map Prod.fst).Nodup := by
      rw [List.map_append, List.append_assoc]
      simpa using h
    calc List.foldl (fun d kv => dictInsert kv.1 kv.2 d)
          (dictInsert k v init) l
        = List.foldl (fun d kv => dictInsert kv.1 kv.2 d) (init ++ [(k, v)]) l := by
          rw [dictInsert_append k v init hk]
      _ = (init ++ [(k, v)]) ++ l := ih (init ++ [(k, v)]) h2
      _ = init ++ ((k, v) :: l) := by rw [List.append_assoc, List.singleton_append]

theorem pyDict_nodup_id {α : Type} (l : List (String × α))
    (h : (l.map Prod.fst).Nodup) : pyDict l = l := by
  rw [pyDict]
  have := pyDict_foldl_append l [] (by simpa using h)
  simpa using this

theorem foldl_insert_nodup {α β : Type} (f : β → α) (g : β → String) (l : List β) :
    ∀ init : List (String × α), (init.map Prod.fst).Nodup →
      ((l.foldl (fun d kv => dictInsert (g kv) (f kv) d) init).map Prod.fst).Nodup := by
  induction l with
  | nil => intro init h; simpa
  | cons q l ih =>
    intro init h
    rw [List.foldl_cons]
    exact ih _ (dictInsert_nodup_fst _ _ _ h)

theorem pyDict_nodup {α : Type} (l : List (String × α)) :
    ((pyDict l).map Prod.fst).Nodup := by
  rw [pyDict]
  exact foldl_insert_nodup Prod.snd Prod.fst l [] (by simp)

end Crawler
namespace Crawler

theorem fields_size_le : ∀ (fs : List (String × Jv)) (k : String) (v : Jv) (lvl : Nat),
    (∀ p ∈ (k, v) :: fs, ∀ l2 : Nat, jsize p.2 ≤ (serVal l2 p.2).length) →
    1 + jsize v + jsizeFields fs ≤ (serFields lvl k v fs).length := by
  intro fs
  induction fs with
  | nil =>
    intro k v lvl h
    have hv := h (k, v) (by simp) (lvl + 1)
    dsimp only at hv
    rw [serFields, jsizeFields]
    simp only [List.length_cons, List.length_append]
    omega
  | cons q gs ih =>
    obtain ⟨k2, v2⟩ := q
    intro k v lvl h
    have hv := h (k, v) (by simp) (lvl + 1)
    dsimp only at hv
    have htail := ih k2 v2 lvl (fun p hp l2 => h p (by simp at hp ⊢; tauto) l2)
    rw [serFields, jsizeFields]
    simp only [List.length_cons, List.length_append]
    omega

theorem jsize_le_serVal (v : Jv) (h : Wf v) : ∀ lvl : Nat, jsize v ≤ (serVal lvl v).length := by
  induction h with
  | str s =>
    intro lvl
    rw [jsize, serVal]
    simp
  | obj fs hnd hmem ih =>
    intro lvl
    cases fs with
    | nil =>
      rw [jsize, jsizeFields, serVal]
      simp
    | cons q gs =>
      obtain ⟨k, v2⟩ := q
      rw [jsize, serVal, jsizeFields]
      have hb := fields_size_le gs k v2 lvl (fun p hp l2 => ih p hp l2)
      simp only [List.length_cons, List.length_append]
      omega

end Crawler
namespace Crawler

theorem serFields_eq (lvl : Nat) (k : String) (v : Jv) (fs : List (String × Jv)) :
    serFields lvl k v fs =
      '\n' :: (ind (lvl + 1) ++ '\"' :: (escStr k.toList ++ '\"' :: ':' :: ' ' ::
        (serVal (lvl + 1) v ++ serFieldsTail lvl fs))) := by
  cases fs with
  | nil => rw [serFields, serFieldsTail]
  | cons q gs =>
    obtain ⟨k2, v2⟩ := q
    rw [serFields, serFieldsTail]

theorem skipWs_serFields (lvl : Nat) (k : String) (v : Jv) (fs : List (String × Jv))
    (t : List Char) :
    skipWs (serFields lvl k v fs ++ t) =
      '\"' :: (escStr k.toList ++ '\"' :: ':' :: ' ' ::
        (serVal (lvl + 1) v ++ (serFieldsTail lvl fs ++ t))) := by
  rw [serFields_eq]
  simp only [List.cons_append, List.append_assoc]
  rw [skipWs_newline, skipWs_ind, skipWs_quote]

theorem parse_ser_round : ∀ fuel : Nat,
    (∀ (v : Jv) (lvl : Nat) (rest : List Char), Wf v → jsize v ≤ fuel →
      parseVal fuel (serVal lvl v ++ rest) = some (v, rest)) ∧
    (∀ (lvl : Nat) (k : String) (v : Jv) (fs : List (String × Jv)) (rest : List Char),
      Wf v → (∀ p ∈ fs, Wf p.2) → 1 + jsize v + jsizeFields fs ≤ fuel →
      parseMembers fuel (serFields lvl k v fs ++ '\n' :: (ind lvl ++ rbrace :: rest)) =
        some ((k, v) :: fs, rest)) := by
  intro fuel
  induction fuel with
  | zero =>
    constructor
    · intro v lvl rest hw hs
      have := jsize_pos v
      omega
    · intro lvl k v fs rest hw hmem hs
      omega
  | succ fuel ih =>
    constructor
    · intro v lvl rest hw hs
      cases hw with
      | str s =>
        rw [serVal]
        simp only [List.cons_append, List.append_assoc, List.singleton_append, List.nil_append]
        rw [parseVal, skipWs_quote]
        dsimp only
        rw [if_pos rfl, parseStrBody_escStr]
        dsimp only
        rw [string_mk_toList]
      | obj fs hnd hmem =>
        cases fs with
        | nil =>
          rw [serVal]
          simp only [List.cons_append, List.nil_append]
          rw [parseVal, skipWs_not_ws lbrace _ (by decide)]
          dsimp only
          rw [if_neg (by decide), if_pos rfl, skipWs_not_ws rbrace _ (by decide)]
          dsimp only
          rw [if_pos rfl]
        | cons q gs =>
          obtain ⟨k, v2⟩ := q
          rw [jsize, jsizeFields] at hs
          rw [serVal]
          simp only [List.cons_append, List.append_assoc, List.singleton_append, List.nil_append]
          rw [parseVal, skipWs_not_ws lbrace _ (by decide)]
          dsimp only
          rw [if_neg (by decide), if_pos rfl, skipWs_serFields]
          dsimp only
          rw [if_neg (by decide),
            ← skipWs_serFields lvl k v2 gs ('\n' :: (ind lvl ++ rbrace :: rest)),
            parseMembers_skipWs,
            ih.2 lvl k v2 gs rest (hmem (k, v2) (by simp))
              (fun p hp => hmem p (List.mem_cons_of_mem _ hp)) (by omega)]
          dsimp only
          rw [pyDict_nodup_id _ hnd]
    · intro lvl k v fs rest hwv hmem hs
      rw [parseMembers, skipWs_serFields]
      dsimp only
      rw [if_pos rfl, parseStrBody_escStr]
      dsimp only
      rw [skipWs_not_ws ':' _ (by decide)]
      dsimp only
      rw [if_pos rfl,
        ← parseVal_skipWs fuel
          (' ' :: (serVal (lvl + 1) v ++
            (serFieldsTail lvl fs ++ '\n' :: (ind lvl ++ rbrace :: rest)))),
        skipWs_space, parseVal_skipWs,
        ih.1 v (lvl + 1) _ hwv (by omega)]
      dsimp only
      cases fs with
      | nil =>
        rw [serFieldsTail, List.nil_append, skipWs_newline, skipWs_ind,
          skipWs_not_ws rbrace _ (by decide)]
        dsimp only
        rw [if_neg (by decide), if_pos rfl, string_mk_toList]
      | cons q gs =>
        obtain ⟨k2, w2⟩ := q
        rw [jsizeFields] at hs
        rw [serFieldsTail]
        simp only [List.cons_append]
        rw [skipWs_not_ws ',' _ (by decide)]
        dsimp only
        rw [if_pos rfl,
          ih.2 lvl k2 w2 gs rest (hmem (k2, w2) (by simp))
            (fun p hp => hmem p (List.mem_cons_of_mem _ hp)) (by omega)]
        dsimp only
        rw [string_mk_toList]

end Crawler
namespace Crawler

theorem loads_dumps (v : Jv) (h : Wf v) : loads (dumps v) = some v := by
  rw [loads]
  have hlist : (dumps v).toList = serVal 0 v := rfl
  have hlen : (dumps v).length = (serVal 0 v).length := rfl
  rw [hlist, hlen]
  have hp := (parse_ser_round ((serVal 0 v).length + 1)).1 v 0 [] h
    (by have := jsize_le_serVal v h 0; omega)
  rw [List.append_nil] at hp
  rw [hp]
  dsimp only
  rw [show skipWs ([] : List Char) = [] from rfl, if_pos rfl]

theorem statToJv_wf (s : Stat) (h : (s.map Prod.fst).Nodup) : Wf (statToJv s) := by
  rw [statToJv]
  refine Wf.obj _ ?_ ?_
  · rw [List.map_map]
    have he : (Prod.fst ∘ fun p : String × String => (p.1, Jv.str p.2)) = Prod.fst := rfl
    rw [he]
    exact h
  · intro p hp
    rcases List.mem_map.1 hp with ⟨q, hq, rfl⟩
    exact Wf.str _

theorem pageDbToJv_wf (d : PageDb) (h : WfPage d) : Wf (pageDbToJv d) := by
  rw [pageDbToJv]
  refine Wf.obj _ ?_ ?_
  · rw [List.map_map]
    have he : (Prod.fst ∘ fun p : String × List (String × Stat) =>
        (p.1, Jv.obj (p.2.map fun q => (q.1, statToJv q.2)))) = Prod.fst := rfl
    rw [he]
    exact h.1
  · intro p hp
    rcases List.mem_map.1 hp with ⟨q, hq, rfl⟩
    dsimp only
    refine Wf.obj _ ?_ ?_
    · rw [List.map_map]
      have he : (Prod.fst ∘ fun r : String × Stat => (r.1, statToJv r.2)) = Prod.fst := rfl
      rw [he]
      exact (h.2 q hq).1
    · intro r hr
      rcases List.mem_map.1 hr with ⟨u, hu, rfl⟩
      exact statToJv_wf _ ((h.2 q hq).2 u hu)

theorem datasetToJv_wf (db : Dataset) (h : WfDataset db) : Wf (datasetToJv db) := by
  rw [datasetToJv]
  refine Wf.obj _ ?_ ?_
  · rw [List.map_map]
    have he : (Prod.fst ∘ fun p : String × List (String × PageDb) =>
        (p.1, Jv.obj (p.2.map fun q => (q.1, pageDbToJv q.2)))) = Prod.fst := rfl
    rw [he]
    exact h.1
  · intro p hp
    rcases List.mem_map.1 hp with ⟨q, hq, rfl⟩
    dsimp only
    refine Wf.obj _ ?_ ?_
    · rw [List.map_map]
      have he : (Prod.fst ∘ fun r : String × PageDb => (r.1, pageDbToJv r.2)) = Prod.fst := rfl
      rw [he]
      exact (h.2 q hq).1
    · intro r hr
      rcases List.mem_map.1 hr with ⟨u, hu, rfl⟩
      exact pageDbToJv_wf _ ((h.2 q hq).2 u hu)

theorem configToJv_wf (c : Config) (h : WfConfig c) : Wf (configToJv c) := by
  rw [configToJv]
  refine Wf.obj _ ?_ ?_
  · rw [List.map_map]
    have he : (Prod.fst ∘ fun p : String × List (String × String) =>
        (p.1, Jv.obj (p.2.map fun q => (q.1, Jv.str q.2)))) = Prod.fst := rfl
    rw [he]
    exact h.1
  · intro p hp
    rcases List.mem_map.1 hp with ⟨q, hq, rfl⟩
    dsimp only
    refine Wf.obj _ ?_ ?_
    · rw [List.map_map]
      have he : (Prod.fst ∘ fun r : String × String => (r.1, Jv.str r.2)) = Prod.fst := rfl
      rw [he]
      exact h.2 q hq
    · intro r hr
      rcases List.mem_map.1 hr with ⟨u, hu, rfl⟩
      exact Wf.str _

end Crawler
namespace Crawler

theorem buildSeasonConfig_nodup (season : String) :
    ∀ (os : List HtmlOption) (acc sc : List (String × String)),
      buildSeasonConfig season os acc = .ok sc → (acc.map Prod.fst).Nodup →
      (sc.map Prod.fst).Nodup := by
  intro os
  induction os with
  | nil =>
    intro acc sc h hnd
    rw [buildSeasonConfig] at h
    injection h with h
    subst h
    exact hnd
  | cons o os ih =>
    intro acc sc h hnd
    rw [buildSeasonConfig] at h
    cases hv : dictGet "value" o.attrs with
    | none => rw [hv] at h; cases h
    | some v =>
      rw [hv] at h
      exact ih _ sc h (dictInsert_nodup_fst _ _ _ hnd)

theorem extractSeason_ok_nodup (t : Except PyError (Soup × String))
    (q : String × List (String × String)) (h : extractSeason t = .ok q) :
    (q.2.map Prod.fst).Nodup := by
  cases t with
  | error e => rw [extractSeason] at h; cases h
  | ok p =>
    obtain ⟨soup, season⟩ := p
    rw [extractSeason] at h
    cases ho : dictGet "stage_sn" soup.byId with
    | none => rw [ho] at h; cases h
    | some options =>
      rw [ho] at h
      dsimp only at h
      by_cases hl : options.length = 0
      · rw [if_pos hl] at h; cases h
      · rw [if_neg hl] at h
        cases hb : buildSeasonConfig season options [] with
        | error e => rw [hb] at h; cases h
        | ok sc =>
          rw [hb] at h
          injection h with h
          subst h
          exact buildSeasonConfig_nodup season options [] sc hb (by simp)

theorem drainConfig_mem_entries (ts : List (Except PyError (Soup × String))) :
    ∀ (init c : Config), drainConfig ts init = .ok c →
      ∀ p ∈ c, p ∈ init ∨ ∃ t ∈ ts, extractSeason t = .ok p := by
  induction ts with
  | nil =>
    intro init c h p hp
    rw [drainConfig] at h
    injection h with h
    subst h
    exact .inl hp
  | cons t0 ts ih =>
    intro init c h p hp
    rw [drainConfig_cons] at h
    cases he : extractSeason t0 with
    | error e => rw [he] at h; cases h
    | ok q =>
      rw [he] at h
      rcases ih _ c h p hp with hin | ⟨t, ht, he2⟩
      · rcases dictInsert_mem q.1 q.2 init p hin with rfl | hin2
        · exact .inr ⟨t0, List.mem_cons_self _ _, he⟩
        · exact .inl hin2
      · exact .inr ⟨t, List.mem_cons_of_mem _ ht, he2⟩

theorem load_config_from_web_wf (fetch : Fetch) (order : List Nat) (c : Config)
    (h : load_config_from_web fetch order = .ok c) : WfConfig c := by
  rw [load_config_from_web] at h
  cases hf : fetchDoc fetch URL with
  | error e => rw [hf] at h; cases h
  | ok soup =>
    rw [hf] at h
    dsimp only at h
    cases ho : dictGet "season_name" soup.byId with
    | none => rw [ho] at h; cases h
    | some opts =>
      rw [ho] at h
      dsimp only at h
      by_cases hl : (opts.map (fun o => o.text)).length = 0
      · rw [if_pos hl] at h; cases h
      · rw [if_neg hl] at h
        constructor
        · exact drainConfig_keys_nodup _ _ _ h (by simp)
        · intro p hp
          rcases drainConfig_mem_entries _ _ _ h p hp with hin | ⟨t, ht, he⟩
          · cases hin
          · exact extractSeason_ok_nodup t p he

theorem load_config_resolved (env : Env) (c : Jv) (w : List (String × String))
    (h : load_config env = (.ok c, w)) (hne : w ≠ []) :
    ∃ config : Config, load_config_from_web env.fetch env.configOrder = .ok config ∧
      c = configToJv config ∧ w = [(CONFIG_FILENAME, dumps (configToJv config))] := by
  have key : resolveConfigAndWrite env = (.ok c, w) →
      ∃ config : Config, load_config_from_web env.fetch env.configOrder = .ok config ∧
        c = configToJv config ∧ w = [(CONFIG_FILENAME, dumps (configToJv config))] := by
    intro hx
    rw [resolveConfigAndWrite] at hx
    cases hcw : load_config_from_web env.fetch env.configOrder with
    | error e =>
      rw [hcw] at hx
      injection hx with h1 h2
      cases h1
    | ok config =>
      rw [hcw] at hx
      injection hx with h1 h2
      injection h1 with h1
      exact ⟨config, rfl, h1.symm, h2.symm⟩
  rw [load_config] at h
  cases hc : env.configCache with
  | none =>
    rw [hc] at h
    exact key h
  | some s =>
    rw [hc] at h
    dsimp only at h
    cases hl : loads (String.mk (load_from_file 1024 s.toList)) with
    | none =>
      rw [hl] at h
      exact key h
    | some v =>
      rw [hl] at h
      dsimp only at h
      cases hv : is_valid_config v with
      | error e =>
        rw [hv] at h
        exact key h
      | ok u =>
        rw [hv] at h
        injection h with h1 h2
        exact absurd h2.symm hne

end Crawler
namespace Crawler

theorem WfPage_nil : WfPage [] := by
  constructor
  · simp
  · intro p hp
    cases hp

theorem addRow_wf (mn ma : String) (db : PageDb) (row : HtmlRow) (db2 : PageDb)
    (h : addRow mn ma db row = .ok db2) (hw : WfPage db) : WfPage db2 := by
  rw [addRow] at h
  cases ht : row.thA with
  | none => rw [ht] at h; cases h
  | some t =>
    rw [ht] at h
    dsimp only at h
    cases hc : cellVals ma row.tds with
    | error e => rw [hc] at h; cases h
    | ok pd =>
      rw [hc] at h
      dsimp only at h
      injection h with h
      subst h
      have hpm : ((match dictGet (pyStrip t) db with
          | none => ([] : List (String × Stat))
          | some m => m).map Prod.fst).Nodup ∧
          ∀ q ∈ (match dictGet (pyStrip t) db with
          | none => ([] : List (String × Stat))
          | some m => m), (q.2.map Prod.fst).Nodup := by
        cases hg : dictGet (pyStrip t) db with
        | none => exact ⟨by simp, by intro q hq; cases hq⟩
        | some m => exact hw.2 (pyStrip t, m) (dictGet_mem _ _ _ hg)
      constructor
      · exact dictInsert_nodup_fst _ _ _ hw.1
      · intro p hp
        rcases dictInsert_mem _ _ _ p hp with rfl | hin
        · constructor
          · exact dictInsert_nodup_fst _ _ _ hpm.1
          · intro q hq
            rcases dictInsert_mem _ _ _ q hq with rfl | hqin
            · exact pyDict_nodup _
            · exact hpm.2 q hqin
        · exact hw.2 p hin

theorem runMode_wf (mn ma : String) : ∀ (rows : List HtmlRow) (db db2 : PageDb),
    runMode mn ma rows db = .ok db2 → WfPage db → WfPage db2 := by
  intro rows
  induction rows with
  | nil =>
    intro db db2 h hw
    rw [runMode] at h
    injection h with h
    subst h
    exact hw
  | cons r rows ih =>
    intro db db2 h hw
    rw [runMode] at h
    cases ha : addRow mn ma db r with
    | error e => rw [ha] at h; cases h
    | ok dbm =>
      rw [ha] at h
      exact ih _ _ h (addRow_wf mn ma db r dbm ha hw)

theorem runModes_wf : ∀ (ms : List (String × String)) (rows : List HtmlRow) (db db2 : PageDb),
    runModes ms rows db = .ok db2 → WfPage db → WfPage db2 := by
  intro ms
  induction ms with
  | nil =>
    intro rows db db2 h hw
    rw [runModes] at h
    injection h with h
    subst h
    exact hw
  | cons m ms ih =>
    obtain ⟨mn, ma⟩ := m
    intro rows db db2 h hw
    rw [runModes] at h
    cases hr : runMode mn ma rows db with
    | error e => rw [hr] at h; cases h
    | ok dbm =>
      rw [hr] at h
      exact ih _ _ _ h (runMode_wf mn ma rows db dbm hr hw)

theorem parse_webpage_wf (fetch : Fetch) (url season st : String) (d : PageDb)
    (s2 t2 : String) (h : parse_webpage fetch url season st = .ok (d, s2, t2)) :
    WfPage d := by
  rw [parse_webpage] at h
  cases hf : fetchDoc fetch url with
  | error e => rw [hf] at h; cases h
  | ok soup =>
    rw [hf] at h
    dsimp only at h
    cases htb : soup.tbody with
    | none => rw [htb] at h; cases h
    | some rows =>
      rw [htb] at h
      dsimp only at h
      cases hr : runModes PER_MODE rows [] with
      | error e => rw [hr] at h; cases h
      | ok db =>
        rw [hr] at h
        injection h with h
        injection h with h1 h2
        subst h1
        exact runModes_wf PER_MODE rows [] _ hr WfPage_nil

theorem dataTasks_wf (fetch : Fetch) (cfg : List (String × Jv)) :
    ∀ t ∈ dataTasks fetch cfg, ∀ (d : PageDb) (s2 t2 : String),
      t = .ok (d, s2, t2) → WfPage d := by
  intro t ht d s2 t2 he
  rw [dataTasks] at ht
  rcases List.mem_flatten.1 ht with ⟨l, hl, htl⟩
  rcases List.mem_map.1 hl with ⟨sp, hsp, rfl⟩
  cases hv : sp.2 with
  | obj inner =>
    rw [hv] at htl
    rcases List.mem_map.1 htl with ⟨tp, htp, rfl⟩
    cases hu : tp.2 with
    | str url =>
      rw [hu] at he
      exact parse_webpage_wf fetch url sp.1 tp.1 d s2 t2 he
    | null => rw [hu] at he; cases he
    | bool b => rw [hu] at he; cases he
    | num n => rw [hu] at he; cases he
    | arr xs => rw [hu] at he; cases he
    | obj fs2 => rw [hu] at he; cases he
  | null => rw [hv] at htl; rcases List.mem_singleton.1 htl with rfl; cases he
  | bool b => rw [hv] at htl; rcases List.mem_singleton.1 htl with rfl; cases he
  | num n => rw [hv] at htl; rcases List.mem_singleton.1 htl with rfl; cases he
  | str s3 => rw [hv] at htl; rcases List.mem_singleton.1 htl with rfl; cases he
  | arr xs => rw [hv] at htl; rcases List.mem_singleton.1 htl with rfl; cases he

theorem initDb_nodup (cfg : List (String × Jv)) : ((initDb cfg).map Prod.fst).Nodup := by
  rw [initDb]
  exact foldl_insert_nodup (fun _ => ([] : List (String × PageDb))) Prod.fst cfg [] (by simp)

theorem initDb_mem (cfg : List (String × Jv)) :
    ∀ p ∈ initDb cfg, p.2 = ([] : List (String × PageDb)) := by
  rw [initDb]
  have key : ∀ (l : List (String × Jv)) (init : Dataset),
      (∀ p ∈ init, p.2 = ([] : List (String × PageDb))) →
      ∀ p ∈ l.foldl (fun db q => dictInsert q.1 [] db) init,
        p.2 = ([] : List (String × PageDb)) := by
    intro l
    induction l with
    | nil =>
      intro init h p hp
      rw [List.foldl_nil] at hp
      exact h p hp
    | cons q l ih =>
      intro init h p hp
      rw [List.foldl_cons] at hp
      refine ih _ ?_ p hp
      intro r hr
      rcases dictInsert_mem _ _ _ r hr with rfl | hin
      · rfl
      · exact h r hin
  exact key cfg [] (by intro p hp; cases hp)

theorem initDb_wf (cfg : List (String × Jv)) : WfDataset (initDb cfg) := by
  constructor
  · exact initDb_nodup cfg
  · intro p hp
    rw [initDb_mem cfg p hp]
    constructor
    · simp
    · intro q hq
      cases hq

theorem drainData_wf : ∀ (ts : List (Except PyError (PageDb × String × String)))
    (db db2 : Dataset), drainData ts db = .ok db2 → WfDataset db →
    (∀ t ∈ ts, ∀ (d : PageDb) (s2 t2 : String), t = .ok (d, s2, t2) → WfPage d) →
    WfDataset db2 := by
  intro ts
  induction ts with
  | nil =>
    intro db db2 h hw ht
    rw [drainData] at h
    injection h with h
    subst h
    exact hw
  | cons t0 ts ih =>
    intro db db2 h hw ht
    rw [drainData_cons] at h
    cases t0 with
    | error e => dsimp only at h; cases h
    | ok trip =>
      obtain ⟨data, season, stype⟩ := trip
      dsimp only at h
      have hwp : WfPage data := ht _ (List.mem_cons_self _ _) data season stype rfl
      cases hg : dictGet season db with
      | none => rw [hg] at h; cases h
      | some m =>
        rw [hg] at h
        refine ih _ _ h ?_ (fun t htm => ht t (List.mem_cons_of_mem _ htm))
        have hm := hw.2 (season, m) (dictGet_mem _ _ _ hg)
        constructor
        · exact dictInsert_nodup_fst _ _ _ hw.1
        · intro p hp
          rcases dictInsert_mem _ _ _ p hp with rfl | hin
          · constructor
            · exact dictInsert_nodup_fst _ _ _ hm.1
            · intro q hq
              rcases dictInsert_mem _ _ _ q hq with rfl | hqin
              · exact hwp
              · exact hm.2 q hqin
          · exact hw.2 p hin

end Crawler
namespace Crawler

theorem load_data_resolved (env : Env) (d : Jv) (w : List (String × String))
    (h : load_data env = (.ok d, w)) (p : String × String) (hp : p ∈ w)
    (hf : p.1 = DATA_FILENAME) :
    ∃ (cfg : List (String × Jv)) (db : Dataset),
      drainData (reorder env.dataOrder (dataTasks env.fetch cfg)) (initDb cfg) = .ok db ∧
      d = datasetToJv db ∧ p.2 = dumps (datasetToJv db) := by
  have key : ∀ w2, p ∈ w2 → resolveDataAndWrite env = (.ok d, w2) →
      ∃ (cfg : List (String × Jv)) (db : Dataset),
        drainData (reorder env.dataOrder (dataTasks env.fetch cfg)) (initDb cfg) = .ok db ∧
        d = datasetToJv db ∧ p.2 = dumps (datasetToJv db) := by
    intro w2 hp2 hx
    rw [resolveDataAndWrite] at hx
    rcases hlc : load_config env with ⟨r, w0⟩
    rw [hlc] at hx
    cases r with
    | error e =>
      dsimp only at hx
      injection hx with h1 h2
      cases h1
    | ok cfgv =>
      cases cfgv with
      | obj cfg =>
        dsimp only at hx
        cases hd : drainData (reorder env.dataOrder (dataTasks env.fetch cfg)) (initDb cfg) with
        | error e =>
          rw [hd] at hx
          injection hx with h1 h2
          cases h1
        | ok db =>
          rw [hd] at hx
          injection hx with h1 h2
          injection h1 with h1
          refine ⟨cfg, db, hd, h1.symm, ?_⟩
          rw [← h2] at hp2
          rcases List.mem_append.1 hp2 with hin | hin
          · have hw0 : w0 = (load_config env).2 := by rw [hlc]
            rcases load_config_writes_shape env with hsh | ⟨c0, hsh⟩
            · rw [hw0, hsh] at hin
              cases hin
            · rw [hw0, hsh] at hin
              rcases List.mem_singleton.1 hin with rfl
              dsimp only at hf
              exact absurd hf (by decide)
          · rcases List.mem_singleton.1 hin with rfl
            rfl
      | null => dsimp only at hx; injection hx with h1 h2; cases h1
      | bool b => dsimp only at hx; injection hx with h1 h2; cases h1
      | num n => dsimp only at hx; injection hx with h1 h2; cases h1
      | str s3 => dsimp only at hx; injection hx with h1 h2; cases h1
      | arr xs => dsimp only at hx; injection hx with h1 h2; cases h1
  rw [load_data] at h
  cases hc : env.dataCache with
  | none =>
    rw [hc] at h
    exact key w hp h
  | some s =>
    rw [hc] at h
    dsimp only at h
    cases hl : loads (String.mk (load_from_file 1024 s.toList)) with
    | some v =>
      rw [hl] at h
      injection h with h1 h2
      rw [← h2] at hp
      cases hp
    | none =>
      rw [hl] at h
      exact key w hp h

/-- C7: the Cache Gate round-trip is the identity on resolver-produced
values.  Whenever a run of `load_config` or `load_data` returns a value
and persists it to its phase's cache file, reading the persisted file
contents back with the chunked reader and parsing them with the JSON
loader yields exactly the returned value. -/
theorem cache_gate_roundtrip :
    (∀ (env : Env) (c : Jv) (w : List (String × String)),
      load_config env = (.ok c, w) →
      ∀ p ∈ w, loads (String.mk (load_from_file 1024 (String.toList p.2))) = some c) ∧
    (∀ (env : Env) (d : Jv) (w : List (String × String)),
      load_data env = (.ok d, w) →
      ∀ p ∈ w, p.1 = DATA_FILENAME →
        loads (String.mk (load_from_file 1024 (String.toList p.2))) = some d) := by
  constructor
  · intro env c w h p hp
    have hne : w ≠ [] := by
      intro he
      rw [he] at hp
      cases hp
    obtain ⟨config, hweb, rfl, rfl⟩ := load_config_resolved env c w h hne
    rcases List.mem_singleton.1 hp with rfl
    have h1 : String.toList (CONFIG_FILENAME, dumps (configToJv config)).2
        = serVal 0 (configToJv config) := rfl
    have h2 : load_from_file 1024 (serVal 0 (configToJv config))
        = serVal 0 (configToJv config) := load_from_file_pos 1023 _
    rw [h1, h2]
    exact loads_dumps _ (configToJv_wf config (load_config_from_web_wf _ _ _ hweb))
  · intro env d w h p hp hf
    obtain ⟨cfg, db, hdrain, rfl, hps⟩ := load_data_resolved env d w h p hp hf
    have h1 : String.toList p.2 = serVal 0 (datasetToJv db) := by
      rw [hps]
      rfl
    have h2 : load_from_file 1024 (serVal 0 (datasetToJv db))
        = serVal 0 (datasetToJv db) := load_from_file_pos 1023 _
    rw [h1, h2]
    refine loads_dumps _ (datasetToJv_wf db ?_)
    exact drainData_wf _ _ _ hdrain (initDb_wf cfg)
      (fun t ht d2 s2 t2 he => dataTasks_wf env.fetch cfg t (reorder_mem _ _ t ht) d2 s2 t2 he)

theorem cache_gate_roundtrip_witness :
    loads (String.mk (load_from_file 1024 (String.toList
      (dumps (configToJv [("2023-24", [("例行賽", URL ++ "/2023-24/001#record")])]))))) =
      some (configToJv [("2023-24", [("例行賽", URL ++ "/2023-24/001#record")])]) :=
  cache_gate_roundtrip.1 envFailData
    (configToJv [("2023-24", [("例行賽", URL ++ "/2023-24/001#record")])])
    [(CONFIG_FILENAME,
      dumps (configToJv [("2023-24", [("例行賽", URL ++ "/2023-24/001#record")])]))]
    rfl
    (CONFIG_FILENAME,
      dumps (configToJv [("2023-24", [("例行賽", URL ++ "/2023-24/001#record")])]))
    (List.mem_singleton.2 rfl)

end Crawler
